import Mathlib

/-!
# Verification of the collidertracker playback sequencer

Shallow embedding of the Song/Chain/Phrase playback state machine of
`internal/input/playback.go` (collidertracker), together with proofs of the
specification claims about it.

The embedding keeps the source's names.  The Go model stores the per-track
transport as eight parallel arrays (`SongPlaybackActive`, `SongPlaybackQueued`,
...); here the eight per-track slots are gathered into one `Transport`
structure per track, indexed by `Fin 8` — an isomorphic representation of the
same data.  Static sequencing data (song grid, chain tables, phrase
delta-time column) is carried in a separate `Tables` record since playback
never mutates it.

A few leaf helpers of the repository (`rowDurationMicroseconds`,
`LoadTicksLeftForTrack`, `FindFirstNonEmptyRowInPhraseForTrack`,
`stopRecording`, `IsRowPlayable`) are not part of the provided sources (only
their callers and tests are); those are modelled from the spec and marked as
such in their doc comments.
-/

namespace ColliderTracker

/-- The playback-relevant values of `types.ViewMode`; every other view is
collapsed into `otherView` (playback code only compares against the three
sequencing views). -/
inductive ViewMode where
  | songView
  | chainView
  | phraseView
  | otherView
deriving DecidableEq

/-- A track index (the song grid has a fixed 8 tracks). -/
abbrev Track := Fin 8

/-- Static sequencing tables, as consumed by the playback code:
`SongData[track][songRow]` (chain id, -1 = empty),
`GetChainsDataForTrack(track)[chainId][chainRow]` (phrase id, -1 = empty) and
the delta-time column `GetPhrasesDataForTrack(track)[phraseId][row][ColDeltaTime]`.
Indices are `Int` as in the Go code; lookups are total functions (the Go code
always guards the indices it uses, which the theorems mirror). -/
structure Tables where
  songData : Track → Int → Int
  chains : Track → Int → Int → Int
  phraseDT : Track → Int → Int → Int

/-- One track's transport: the track-indexed slots of the model's
`SongPlayback*` arrays, gathered into a record.
`queued` uses the source's encoding: 0 = none, 1 = start, -1 = stop. -/
structure Transport where
  active : Bool
  queued : Int
  queuedRow : Int
  songRow : Int
  chain : Int
  chainRow : Int
  phrase : Int
  rowInPhrase : Int
  ticksLeft : Int
deriving DecidableEq

/-- An emitted row trigger: the arguments of `EmitRowDataFor(m, phrase, row, track)`. -/
abbrev Emit := Int × Int × Track

/-- The playback-relevant part of `model.Model`.  Side effects are made
observable: `emitted` logs `EmitRowDataFor` calls and `stopSignals` counts
`SendStopOSC` calls. -/
structure State where
  isPlaying : Bool
  playbackMode : ViewMode
  viewMode : ViewMode
  currentRow : Int
  currentCol : Int
  currentTrack : Track
  transports : Track → Transport
  playbackRow : Int
  playbackChain : Int
  playbackChainRow : Int
  playbackPhrase : Int
  tickCount : Int
  recordingActive : Bool
  currentlyPlayingFile : String
  stopSignals : Nat
  emitted : List Emit
  incrementCounters : Track → Int → Int → Int

/-- Replace one track's transport, leaving the rest of the state alone
(a single `m.SongPlayback*[track] = ...` update group in the Go code). -/
def setTransport (s : State) (track : Track) (t : Transport) : State :=
  { s with transports := Function.update s.transports track t }

/-- `m.CurrentCol` as a track index, when in range (the Go code checks
`track < 0 || track >= 8` and bails out otherwise). -/
def trackOf? (n : Int) : Option Track :=
  if h : 0 ≤ n ∧ n < 8 then some ⟨n.toNat, by omega⟩ else none

theorem trackOf?_coe (t : Track) : trackOf? (t.val : Int) = some t := by
  have h : (0 : Int) ≤ (t.val : Int) ∧ (t.val : Int) < 8 := by
    exact ⟨Int.ofNat_nonneg _, by exact_mod_cast t.isLt⟩
  simp only [trackOf?, dif_pos h]
  refine congrArg some (Fin.ext ?_)
  simp

/-- CancelQueuedAction (playback.go:194-211): in Song view, clear any queued
playback action for the current track. -/
def CancelQueuedAction (s : State) : State :=
  if s.viewMode ≠ .songView then s
  else
    match trackOf? s.currentCol with
    | none => s
    | some track =>
      if (s.transports track).queued ≠ 0 then
        setTransport s track { s.transports track with queued := 0, queuedRow := -1 }
      else s

/-- C8 — Cancel clears any queued action (start, stop or jump) down to
`queued = 0, queuedRow = -1`, touching nothing else; it is a no-op when
nothing is queued; and it is idempotent. -/
theorem cancelQueuedAction_spec (s : State) (track : Track)
    (hv : s.viewMode = .songView) (hc : s.currentCol = (track.val : Int)) :
    ((s.transports track).queued ≠ 0 →
      CancelQueuedAction s =
        setTransport s track { s.transports track with queued := 0, queuedRow := -1 }) ∧
    ((s.transports track).queued = 0 → CancelQueuedAction s = s) ∧
    CancelQueuedAction (CancelQueuedAction s) = CancelQueuedAction s := by
  have hbase : ∀ s₂ : State, s₂.viewMode = .songView →
      s₂.currentCol = (track.val : Int) →
      CancelQueuedAction s₂ =
        (if (s₂.transports track).queued ≠ 0 then
          setTransport s₂ track { s₂.transports track with queued := 0, queuedRow := -1 }
        else s₂) := by
    intro s₂ hv₂ hc₂
    unfold CancelQueuedAction
    rw [hc₂, trackOf?_coe, hv₂]
    simp
  have h₁ := hbase s hv hc
  refine ⟨?_, ?_, ?_⟩
  · intro hq
    rw [h₁, if_pos hq]
  · intro hq
    rw [h₁, if_neg (by simp [hq])]
  · by_cases hq : (s.transports track).queued ≠ 0
    · have hres : CancelQueuedAction s =
          setTransport s track { s.transports track with queued := 0, queuedRow := -1 } := by
        rw [h₁, if_pos hq]
      have h₂ := hbase (CancelQueuedAction s) (by rw [hres]; exact hv)
        (by rw [hres]; exact hc)
      rw [h₂, if_neg]
      simp [hres, setTransport, Function.update_same]
    · have hres : CancelQueuedAction s = s := by
        rw [h₁, if_neg (by simpa using hq)]
      rw [hres]
      exact hres

/-- Witness for `cancelQueuedAction_spec` at a concrete state with a queued
jump on track 2. -/
def witnessTransport : Transport :=
  { active := true, queued := -1, queuedRow := 5, songRow := 2, chain := 0,
    chainRow := 0, phrase := 0, rowInPhrase := 0, ticksLeft := 3 }

/-- A concrete state used by the witnesses below: track 2 active with a
queued jump, everything else inert. -/
def witnessState : State :=
  { isPlaying := true
    playbackMode := .songView
    viewMode := .songView
    currentRow := 2
    currentCol := 2
    currentTrack := 0
    transports := fun t => if t = 2 then witnessTransport else
      { active := false, queued := 0, queuedRow := -1, songRow := 0, chain := -1,
        chainRow := 0, phrase := -1, rowInPhrase := 0, ticksLeft := 0 }
    playbackRow := -1
    playbackChain := -1
    playbackChainRow := -1
    playbackPhrase := -1
    tickCount := 0
    recordingActive := false
    currentlyPlayingFile := ""
    stopSignals := 0
    emitted := []
    incrementCounters := fun _ _ _ => -1 }

theorem cancelQueuedAction_spec_witness :
    witnessState.viewMode = .songView ∧
    witnessState.currentCol = ((2 : Track).val : Int) ∧
    ((witnessState.transports 2).queued ≠ 0 →
      CancelQueuedAction witnessState =
        setTransport witnessState 2
          { witnessState.transports 2 with queued := 0, queuedRow := -1 }) ∧
    CancelQueuedAction (CancelQueuedAction witnessState) =
      CancelQueuedAction witnessState := by
  refine ⟨rfl, rfl, ?_, ?_⟩
  · exact (cancelQueuedAction_spec witnessState 2 rfl rfl).1
  · exact (cancelQueuedAction_spec witnessState 2 rfl rfl).2.2

/-! ## Timing Calculator -/

/-- Modelled from the spec: the Timing Calculator.  The source function
`rowDurationMicroseconds` is not among the provided sources (only its callers
`Tick` and the timing tests are); per the spec it returns
`60,000,000 / (beatsPerMinute × pulsesPerQuarterNote)` microseconds.
Floating-point arithmetic is embedded as exact rationals. -/
def rowDurationMicroseconds (bpm ppq : ℚ) : ℚ :=
  60000000 / (bpm * ppq)

/-- C9 — the tick duration equals 60,000,000/(bpm×ppq) microseconds (exactly,
hence within the 1 µs tolerance), with the representative pairs of the spec:
(60,1)→1,000,000; (120,1)→500,000; (60,2)→500,000; (90,4)→166,666.67 (within
1 µs). -/
theorem rowDurationMicroseconds_spec (bpm ppq : ℚ)
    (hb : 0 < bpm) (hp : 1 ≤ ppq) :
    |rowDurationMicroseconds bpm ppq - 60000000 / (bpm * ppq)| ≤ 1 ∧
    rowDurationMicroseconds 60 1 = 1000000 ∧
    rowDurationMicroseconds 120 1 = 500000 ∧
    rowDurationMicroseconds 60 2 = 500000 ∧
    |rowDurationMicroseconds 90 4 - 16666667 / 100| ≤ 1 := by
  refine ⟨?_, by norm_num [rowDurationMicroseconds], by norm_num [rowDurationMicroseconds],
    by norm_num [rowDurationMicroseconds], by norm_num [rowDurationMicroseconds, abs_le]⟩
  simp [rowDurationMicroseconds]

/-- Witness for `rowDurationMicroseconds_spec` at bpm = 90, ppq = 4. -/
theorem rowDurationMicroseconds_spec_witness :
    (0 : ℚ) < 90 ∧ (1 : ℚ) ≤ 4 ∧
    |rowDurationMicroseconds 90 4 - 16666667 / 100| ≤ 1 := by
  exact ⟨by norm_num, by norm_num, (rowDurationMicroseconds_spec 90 4 (by norm_num) (by norm_num)).2.2.2.2⟩

/-! ## Tick scheduling (C4)

`Tick` (playback.go:394-399) arms the next playback tick with
`tea.Tick(time.Duration(us*1000), ...)`: a duration *relative to the moment
of rescheduling*.  `TrackerModel.Update` (main.go:729-742) re-arms it this
way after processing each `TickMsg`.  The model's `PlaybackStartTime` and
`PlaybackTickCount` fields are maintained (main.go:738) but never consulted
when arming a tick.  -/

/-- Tick (playback.go:394-399): the deadline produced for the next tick is
`now + tickDuration` — relative to the current time at reschedule
(microsecond units). -/
def nextTickDeadline (now tickDuration : ℚ) : ℚ := now + tickDuration

/-- The deadline sequence the playback loop produces: the initial row is
emitted at `startTime` (deadline of tick 0); tick `n+1` is armed right after
tick `n` is processed, `lat n ≥ 0` after tick `n`'s deadline, via
`nextTickDeadline`. -/
def scheduledDeadline (startTime tickDuration : ℚ) (lat : ℕ → ℚ) : ℕ → ℚ
  | 0 => startTime
  | n + 1 =>
    nextTickDeadline (scheduledDeadline startTime tickDuration lat n + lat n) tickDuration

/-- The absolute schedule the spec requires for tick `n`:
`startTime + n × tickDuration`. -/
def absoluteDeadline (startTime tickDuration : ℚ) (n : ℕ) : ℚ :=
  startTime + (n : ℚ) * tickDuration

/-- C4 — the playback loop's deadlines are relative, not absolute: with tick
duration 1,000,000 µs (60 BPM, PPQ 1) and a single microsecond of processing
latency at tick 0, the deadline produced for tick 1 is `startTime + D + 1`,
off the required `startTime + 1×D` by more than the 1 µs tolerance would ever
recover across ticks (the error accumulates each reschedule). -/
theorem tick_scheduling_is_relative_not_absolute :
    scheduledDeadline 0 1000000 (fun _ => 1) 1 = 1000001 ∧
    absoluteDeadline 0 1000000 1 = 1000000 ∧
    scheduledDeadline 0 1000000 (fun _ => 1) 1 ≠ absoluteDeadline 0 1000000 1 := by
  refine ⟨?_, ?_, ?_⟩ <;>
    norm_num [scheduledDeadline, nextTickDeadline, absoluteDeadline]

/-! ## Sequence Resolver -/

/-- findFirstPlayableRowInPhraseForTrack (playback.go:724-740), as the pure
search: the first row 0..254 of the phrase whose DT value is ≥ 1, `none` when
the phrase id is out of range or no row is playable.  (The Go function writes
the found row into `SongPlaybackRowInPhrase` and returns a bool; callers of
this embedding perform that write on `some`.) -/
def findFirstPlayableRowInPhraseForTrack (tab : Tables) (track : Track)
    (phraseNum : Int) : Option Int :=
  if phraseNum < 0 ∨ 255 ≤ phraseNum then none
  else ((List.range 255).find? fun (r : ℕ) =>
    decide (1 ≤ tab.phraseDT track phraseNum (r : Int))).map fun (r : ℕ) => (r : Int)

/-- The within-phrase search of advanceToNextPlayableRowForTrack
(playback.go:662-674): the first row strictly after `after` with DT ≥ 1,
guarded by the phrase id being in range. -/
def nextPlayableRowInPhrase (tab : Tables) (track : Track)
    (phraseNum after : Int) : Option Int :=
  if 0 ≤ phraseNum ∧ phraseNum < 255 then
    ((List.range 255).find? fun (r : ℕ) =>
      decide (after < (r : Int) ∧ 1 ≤ tab.phraseDT track phraseNum (r : Int))).map
      fun (r : ℕ) => (r : Int)
  else none

/-- Ascending indices `lo, lo+1, ..., n-1`, clipped at 0 (the Go loop counters
that these model only take nonnegative start values in reachable states). -/
def intRange (lo : Int) (n : Nat) : List Int :=
  ((List.range n).map fun (i : ℕ) => (i : Int)).filter fun i => lo ≤ i

/-- The within-chain scan of advanceToNextPlayableRowForTrack
(playback.go:676-690): try each later chain slot in order; a non-empty slot is
written into `chainRow`/`phrase` before its phrase is searched (these writes
stick even when the scan moves on), and a successful search also writes
`rowInPhrase` and stops the scan. -/
def scanChainSlots (tab : Tables) (track : Track) (currentChain : Int) :
    Transport → List Int → Transport × Bool
  | t, [] => (t, false)
  | t, chainRow :: rest =>
    let phraseID := tab.chains track currentChain chainRow
    if phraseID ≠ -1 then
      let t₁ := { t with chainRow := chainRow, phrase := phraseID }
      match findFirstPlayableRowInPhraseForTrack tab track phraseID with
      | some r => ({ t₁ with rowInPhrase := r }, true)
      | none => scanChainSlots tab track currentChain t₁ rest
    else scanChainSlots tab track currentChain t rest

/-- The slot scan inside the song-row search (playback.go:700-717): the first
non-empty slot of `chainID` whose phrase has a playable row, together with
that phrase and row. -/
def scanSongChainSlots (tab : Tables) (track : Track) (chainID : Int) :
    List Int → Option (Int × Int × Int)
  | [] => none
  | chainRow :: rest =>
    let phraseID := tab.chains track chainID chainRow
    if phraseID ≠ -1 then
      match findFirstPlayableRowInPhraseForTrack tab track phraseID with
      | some r => some (chainRow, phraseID, r)
      | none => scanSongChainSlots tab track chainID rest
    else scanSongChainSlots tab track chainID rest

/-- The 16 song rows visited by the wraparound search (playback.go:694-696):
`(songRow + 1 + offset) % 16` for offsets 0..15. -/
def searchRows (songRow : Int) : List Int :=
  (List.range 16).map fun (k : ℕ) => (songRow + 1 + (k : Int)) % 16

/-- The song-row search of advanceToNextPlayableRowForTrack
(playback.go:692-718): the first visited song row holding a chain with a
playable phrase, with the resolved chain slot, phrase and row. -/
def findNextSongSlot (tab : Tables) (track : Track) :
    List Int → Option (Int × Int × Int × Int × Int)
  | [] => none
  | searchRow :: rest =>
    let chainID := tab.songData track searchRow
    if chainID ≠ -1 then
      match scanSongChainSlots tab track chainID (intRange 0 16) with
      | some (chainRow, phraseID, r) => some (searchRow, chainID, chainRow, phraseID, r)
      | none => findNextSongSlot tab track rest
    else findNextSongSlot tab track rest

/-- advanceToNextPlayableRowForTrack (playback.go:653-722) on one track's
transport (the Go function reads and writes only that track's `SongPlayback*`
slots and the static tables): (a) next playable row within the current phrase;
(b) later chain slots of the current chain; (c) wraparound song-row scan.
Returns (transport, success, chainLooped). -/
def advanceToNextPlayableRowForTrack (tab : Tables) (track : Track)
    (t : Transport) : Transport × Bool × Bool :=
  match nextPlayableRowInPhrase tab track t.phrase t.rowInPhrase with
  | some i => ({ t with rowInPhrase := i }, true, false)
  | none =>
    let res := scanChainSlots tab track t.chain t (intRange (t.chainRow + 1) 16)
    if res.2 then (res.1, true, false)
    else
      match findNextSongSlot tab track (searchRows res.1.songRow) with
      | some (searchRow, chainID, chainRow, phraseID, r) =>
        ({ res.1 with songRow := searchRow, chain := chainID, chainRow := chainRow,
                      phrase := phraseID, rowInPhrase := r }, true, true)
      | none => (res.1, false, false)

/-! ### Characterizing the resolver steps -/

/-- Step (a) applies: the current phrase (id in range) still has a playable
row strictly after the current one. -/
def phraseHasLaterPlayableRow (tab : Tables) (track : Track) (t : Transport) : Prop :=
  0 ≤ t.phrase ∧ t.phrase < 255 ∧
    ∃ r : ℕ, r < 255 ∧ t.rowInPhrase < (r : Int) ∧
      1 ≤ tab.phraseDT track t.phrase (r : Int)

/-- Step (b) applies: some later slot of the current chain holds a phrase
(id in the valid range 0..254) with at least one playable row. -/
def chainHasLaterPlayableSlot (tab : Tables) (track : Track) (t : Transport) : Prop :=
  ∃ c : ℕ, c < 16 ∧ t.chainRow < (c : Int) ∧
    0 ≤ tab.chains track t.chain (c : Int) ∧ tab.chains track t.chain (c : Int) < 255 ∧
    ∃ r : ℕ, r < 255 ∧ 1 ≤ tab.phraseDT track (tab.chains track t.chain (c : Int)) (r : Int)

theorem mem_intRange {lo : Int} {n : Nat} {i : Int} :
    i ∈ intRange lo n ↔ lo ≤ i ∧ 0 ≤ i ∧ i < (n : Int) := by
  unfold intRange
  rw [List.mem_filter, List.mem_map]
  constructor
  · rintro ⟨⟨k, hk, rfl⟩, hlo⟩
    rw [List.mem_range] at hk
    rw [decide_eq_true_eq] at hlo
    exact ⟨hlo, Int.ofNat_nonneg k, by exact_mod_cast hk⟩
  · rintro ⟨hlo, h0, hn⟩
    refine ⟨⟨i.toNat, ?_, by omega⟩, ?_⟩
    · rw [List.mem_range]; omega
    · rw [decide_eq_true_eq]; exact hlo

theorem findFirstPlayable_isSome_iff (tab : Tables) (track : Track) (pid : Int) :
    (findFirstPlayableRowInPhraseForTrack tab track pid).isSome = true ↔
      (0 ≤ pid ∧ pid < 255 ∧
        ∃ r : ℕ, r < 255 ∧ 1 ≤ tab.phraseDT track pid (r : Int)) := by
  unfold findFirstPlayableRowInPhraseForTrack
  by_cases h : pid < 0 ∨ 255 ≤ pid
  · rw [if_pos h]
    simp only [Option.isSome_none, Bool.false_eq_true, false_iff]
    rintro ⟨h0, h255, -⟩
    omega
  · rw [if_neg h]
    rw [Option.isSome_map']
    rw [List.find?_isSome]
    simp only [List.mem_range, decide_eq_true_eq]
    constructor
    · rintro ⟨r, hr, hdt⟩
      exact ⟨by omega, by omega, r, hr, hdt⟩
    · rintro ⟨-, -, r, hr, hdt⟩
      exact ⟨r, hr, hdt⟩

theorem nextPlayable_isSome_iff (tab : Tables) (track : Track)
    (phraseNum after : Int) :
    (nextPlayableRowInPhrase tab track phraseNum after).isSome = true ↔
      (0 ≤ phraseNum ∧ phraseNum < 255 ∧
        ∃ r : ℕ, r < 255 ∧ after < (r : Int) ∧
          1 ≤ tab.phraseDT track phraseNum (r : Int)) := by
  unfold nextPlayableRowInPhrase
  by_cases h : 0 ≤ phraseNum ∧ phraseNum < 255
  · rw [if_pos h]
    rw [Option.isSome_map']
    rw [List.find?_isSome]
    simp only [List.mem_range, decide_eq_true_eq]
    constructor
    · rintro ⟨r, hr, hlt, hdt⟩
      exact ⟨h.1, h.2, r, hr, hlt, hdt⟩
    · rintro ⟨-, -, r, hr, hlt, hdt⟩
      exact ⟨r, hr, hlt, hdt⟩
  · rw [if_neg h]
    simp only [Option.isSome_none, Bool.false_eq_true, false_iff]
    rintro ⟨h0, h255, -⟩
    exact h ⟨h0, h255⟩

theorem scanChainSlots_ok_iff (tab : Tables) (track : Track) (chain : Int)
    (l : List Int) : ∀ t : Transport,
    (scanChainSlots tab track chain t l).2 = true ↔
      ∃ c ∈ l, tab.chains track chain c ≠ -1 ∧
        (findFirstPlayableRowInPhraseForTrack tab track
          (tab.chains track chain c)).isSome = true := by
  induction l with
  | nil => intro t; simp [scanChainSlots]
  | cons c rest ih =>
    intro t
    by_cases hc : tab.chains track chain c ≠ -1
    · cases hf : findFirstPlayableRowInPhraseForTrack tab track
        (tab.chains track chain c) with
      | some r =>
        simp only [scanChainSlots, if_pos hc, hf]
        refine iff_of_true trivial ⟨c, List.mem_cons_self c rest, hc, ?_⟩
        rw [hf]
        rfl
      | none =>
        simp only [scanChainSlots, if_pos hc, hf]
        rw [ih]
        simp only [List.mem_cons]
        constructor
        · rintro ⟨x, hx, hne, hsome⟩
          exact ⟨x, Or.inr hx, hne, hsome⟩
        · rintro ⟨x, hx | hx, hne, hsome⟩
          · subst hx
            rw [hf] at hsome
            simp at hsome
          · exact ⟨x, hx, hne, hsome⟩
    · simp only [scanChainSlots, if_neg hc]
      rw [ih]
      simp only [List.mem_cons]
      constructor
      · rintro ⟨x, hx, hne, hsome⟩
        exact ⟨x, Or.inr hx, hne, hsome⟩
      · rintro ⟨x, hx | hx, hne, hsome⟩
        · subst hx
          exact absurd hne hc
        · exact ⟨x, hx, hne, hsome⟩

/-- The step (b) scan succeeds exactly when the chain has a later playable
slot in the claimed sense. -/
theorem scanChainSlots_ok_iff_pred (tab : Tables) (track : Track)
    (t : Transport) :
    (scanChainSlots tab track t.chain t (intRange (t.chainRow + 1) 16)).2 = true ↔
      chainHasLaterPlayableSlot tab track t := by
  rw [scanChainSlots_ok_iff]
  unfold chainHasLaterPlayableSlot
  constructor
  · rintro ⟨c, hc, hne, hsome⟩
    rw [mem_intRange] at hc
    rw [findFirstPlayable_isSome_iff] at hsome
    obtain ⟨h0, h255, r, hr, hdt⟩ := hsome
    refine ⟨c.toNat, by omega, by omega, ?_, ?_, r, hr, ?_⟩
    · rw [Int.toNat_of_nonneg hc.2.1]; exact h0
    · rw [Int.toNat_of_nonneg hc.2.1]; exact h255
    · rw [Int.toNat_of_nonneg hc.2.1]; exact hdt
  · rintro ⟨c, hc, hlt, h0, h255, r, hr, hdt⟩
    refine ⟨(c : Int), ?_, by omega, ?_⟩
    · rw [mem_intRange]
      exact ⟨by omega, Int.ofNat_nonneg c, by exact_mod_cast hc⟩
    · rw [findFirstPlayable_isSome_iff]
      exact ⟨h0, h255, r, hr, hdt⟩

/-- C1 — on success, advanceToNextPlayableRowForTrack reports
`chainLooped = true` exactly when resolution fell through to the song-row scan
(step c): the current phrase has no later playable row and the current chain
has no later slot holding a phrase with a playable row.  The song row plays no
part in the flag (a single one-phrase chain that resolves back to the same
song row still reports `chainLooped = true`); in every other successful case
the flag is false. -/
theorem advanceTrackSequence_chainLooped_iff (tab : Tables) (track : Track)
    (t : Transport)
    (hs : (advanceToNextPlayableRowForTrack tab track t).2.1 = true) :
    ((advanceToNextPlayableRowForTrack tab track t).2.2 = true) ↔
      (¬ phraseHasLaterPlayableRow tab track t ∧
        ¬ chainHasLaterPlayableSlot tab track t) := by
  unfold advanceToNextPlayableRowForTrack at hs ⊢
  cases hnp : nextPlayableRowInPhrase tab track t.phrase t.rowInPhrase with
  | some i =>
    simp only [hnp]
    have ha : phraseHasLaterPlayableRow tab track t := by
      have := (nextPlayable_isSome_iff tab track t.phrase t.rowInPhrase).mp
        (by rw [hnp]; rfl)
      exact this
    simp [ha]
  | none =>
    have ha : ¬ phraseHasLaterPlayableRow tab track t := by
      intro hcontra
      have := (nextPlayable_isSome_iff tab track t.phrase t.rowInPhrase).mpr hcontra
      rw [hnp] at this
      simp at this
    simp only [hnp] at hs ⊢
    by_cases hok :
      (scanChainSlots tab track t.chain t (intRange (t.chainRow + 1) 16)).2 = true
    · have hb : chainHasLaterPlayableSlot tab track t :=
        (scanChainSlots_ok_iff_pred tab track t).mp hok
      simp [hok, hb]
    · have hb : ¬ chainHasLaterPlayableSlot tab track t := by
        intro hcontra
        exact hok ((scanChainSlots_ok_iff_pred tab track t).mpr hcontra)
      rw [Bool.not_eq_true] at hok
      simp only [hok] at hs ⊢
      cases hfs : findNextSongSlot tab track
        (searchRows (scanChainSlots tab track t.chain t
          (intRange (t.chainRow + 1) 16)).1.songRow) with
      | some v =>
        obtain ⟨searchRow, chainID, chainRow, phraseID, r⟩ := v
        simp only [hfs, Bool.false_eq_true, if_false]
        simp [ha, hb]
      | none =>
        simp only [hfs, Bool.false_eq_true, if_false] at hs

/-- A one-track, one-chain, one-phrase song: track 0, song row 0 holds chain
0 whose only slot holds phrase 0, whose only playable row is row 0. -/
def tabW : Tables :=
  { songData := fun track row => if track = 0 ∧ row = 0 then 0 else -1
    chains := fun track chainID chainRow =>
      if track = 0 ∧ chainID = 0 ∧ chainRow = 0 then 0 else -1
    phraseDT := fun track phraseID row =>
      if track = 0 ∧ phraseID = 0 ∧ row = 0 then 1 else 0 }

/-- Track 0's transport sitting on the last (only) playable row of the only
phrase of its single-slot chain. -/
def tW : Transport :=
  { active := true, queued := 0, queuedRow := -1, songRow := 0, chain := 0,
    chainRow := 0, phrase := 0, rowInPhrase := 0, ticksLeft := 0 }

/-- Witness: the single one-phrase chain loops back to the same song row with
`success = true` and `chainLooped = true`. -/
theorem advanceTrackSequence_chainLooped_iff_witness :
    ((advanceToNextPlayableRowForTrack tabW 0 tW).2.1 = true) ∧
    (((advanceToNextPlayableRowForTrack tabW 0 tW).2.2 = true) ↔
      (¬ phraseHasLaterPlayableRow tabW 0 tW ∧
        ¬ chainHasLaterPlayableSlot tabW 0 tW)) ∧
    (advanceToNextPlayableRowForTrack tabW 0 tW).1.songRow = tW.songRow :=
  ⟨by decide, advanceTrackSequence_chainLooped_iff tabW 0 tW (by decide), by decide⟩

/-! ## Transport Control API -/

/-- Modelled from the spec: `firstPlayableRowInPhrase` (§4.2) as used by the
start paths.  The source helper `FindFirstNonEmptyRowInPhraseForTrack` is not
among the provided sources (only its callers are); §4.3 step 6 uses it to
"find the first playable row" when activating, i.e. the lowest row 0..254
with DT ≥ 1.  Its callers store the result directly in `rowInPhrase`, so the
"not found" case is represented by row 0 (an in-range pass-through row). -/
def FindFirstNonEmptyRowInPhraseForTrack (tab : Tables) (track : Track)
    (phraseNum : Int) : Int :=
  match findFirstPlayableRowInPhraseForTrack tab track phraseNum with
  | some r => r
  | none => 0

/-- Modelled from the spec: §4.3 step 5 "load new tick budget for the
resolved row"; DT "encodes musical duration directly as ticks until next
event" (§4.2).  The source helper `LoadTicksLeftForTrack` is not among the
provided sources. -/
def LoadTicksLeftForTrack (tab : Tables) (track : Track) (t : Transport) :
    Transport :=
  { t with ticksLeft := tab.phraseDT track t.phrase t.rowInPhrase }

/-- The shared full-stop side effects (playback.go:306-320, 564-574 and the
context-switch preambles): stop any live recording (`stopRecording` is
modelled from the spec — it clears the live-recording state), clear the
playing-file state, and send the engine-stop signal. -/
def fullStopEffects (s : State) : State :=
  let s₁ := if s.recordingActive then { s with recordingActive := false } else s
  let s₂ :=
    if s₁.currentlyPlayingFile ≠ "" then { s₁ with currentlyPlayingFile := "" } else s₁
  { s₂ with stopSignals := s₂.stopSignals + 1 }

/-- The playback-state reset loop of the context-switch preambles
(playback.go:238-244): deactivate and dequeue all 8 tracks. -/
def resetAllSongPlayback (s : State) : State :=
  { s with transports := fun u =>
      { s.transports u with active := false, queued := 0, queuedRow := -1 } }

/-- The jump-validation loop (playback.go:282-294): some slot of the chain is
non-empty. -/
def chainHasValidPhrase (tab : Tables) (track : Track) (chainID : Int) : Bool :=
  (List.range 16).any fun (c : ℕ) => decide (tab.chains track chainID (c : Int) ≠ -1)

/-- The first-phrase loops (playback.go:330-340 and 519-528): the first
non-empty slot of a chain and its phrase id. -/
def firstNonEmptyChainSlot (tab : Tables) (track : Track) (chainID : Int) :
    Option (Int × Int) :=
  ((List.range 16).find? fun (c : ℕ) =>
    decide (tab.chains track chainID (c : Int) ≠ -1)).map
    fun (c : ℕ) => ((c : Int), tab.chains track chainID (c : Int))

/-- The immediate-start block (playback.go:352-388): initialize global
playback on first start (including the increment-counter reset for the
track), activate the track seeded at the chain's first phrase and its first
playable row, load the tick budget and emit the initial row. -/
def startTrackImmediate (tab : Tables) (s : State) (track : Track)
    (songRow chainID firstChainRow firstPhraseID : Int) : State :=
  let s₃ :=
    if ¬ s.isPlaying then
      { s with
          isPlaying := true
          playbackMode := .songView
          playbackPhrase := -1
          playbackRow := -1
          playbackChain := -1
          playbackChainRow := -1
          incrementCounters := Function.update s.incrementCounters track
            (fun p r =>
              if 0 ≤ p ∧ p < 255 ∧ 0 ≤ r ∧ r < 255 then -1
              else s.incrementCounters track p r) }
    else s
  let rip := FindFirstNonEmptyRowInPhraseForTrack tab track firstPhraseID
  let t₀ :=
    { s₃.transports track with
        active := true
        queued := 0
        songRow := songRow
        chain := chainID
        chainRow := firstChainRow
        phrase := firstPhraseID
        rowInPhrase := rip }
  let t₁ := LoadTicksLeftForTrack tab track t₀
  let s₂ := setTransport s₃ track t₁
  { s₂ with emitted := s₂.emitted ++ [(firstPhraseID, rip, track)] }

/-- The Song-view body of ToggleSingleTrackPlayback (playback.go:246-392):
jump / queued stop / immediate stop when the cursor track is playing;
immediate or queued start otherwise. -/
def toggleSongView (tab : Tables) (s : State) (track : Track) : State :=
  let isCurrentTrackPlaying : Bool :=
    s.isPlaying && decide (s.playbackMode = .songView) && (s.transports track).active
  let hasOtherTracksPlaying : Bool :=
    s.isPlaying && decide (s.playbackMode = .songView) &&
      ((List.finRange 8).any fun u => decide (u ≠ track) && (s.transports u).active)
  let songRow := s.currentRow
  if songRow < 0 ∨ 16 ≤ songRow then s
  else if isCurrentTrackPlaying then
    if (s.transports track).songRow ≠ songRow then
      let chainID := tab.songData track songRow
      if chainID = -1 then s
      else if ¬ chainHasValidPhrase tab track chainID then s
      else setTransport s track { s.transports track with queued := -1, queuedRow := songRow }
    else if hasOtherTracksPlaying then
      setTransport s track { s.transports track with queued := -1, queuedRow := -1 }
    else
      let s₁ := setTransport s track { s.transports track with active := false, queued := 0, queuedRow := -1 }
      fullStopEffects { s₁ with isPlaying := false }
  else
    let chainID := tab.songData track songRow
    if chainID = -1 then s
    else
      match firstNonEmptyChainSlot tab track chainID with
      | none => s
      | some (firstChainRow, firstPhraseID) =>
        if hasOtherTracksPlaying then
          setTransport s track { s.transports track with queued := 1, queuedRow := songRow }
        else
          startTrackImmediate tab s track songRow chainID firstChainRow firstPhraseID

/-- ToggleSingleTrackPlayback (playback.go:213-392): the Song-view Space-key
transport control.  Outside Song view the source delegates to the
Chain/Phrase-view toggle (`TogglePlayback`), which is not part of the Song
transport model; that branch is embedded as the identity and every theorem
about this function pins `viewMode = songView`.  The context-switch preamble
(playback.go:227-245) runs before the Song-view dispatch. -/
def ToggleSingleTrackPlayback (tab : Tables) (s : State) : State :=
  if s.viewMode ≠ .songView then s
  else
    match trackOf? s.currentCol with
    | none => s
    | some track =>
      let s₁ :=
        if s.isPlaying ∧ (s.playbackMode = .chainView ∨ s.playbackMode = .phraseView) then
          resetAllSongPlayback (fullStopEffects { s with isPlaying := false })
        else s
      toggleSongView tab s₁ track

/-- Under Song view with a valid cursor track and no context-switch preamble,
the toggle reduces to its Song-view body. -/
theorem toggle_eq_toggleSongView (tab : Tables) (s : State) (track : Track)
    (hv : s.viewMode = .songView) (hc : s.currentCol = (track.val : Int))
    (hpre : s.playbackMode = .songView ∨ s.isPlaying = false) :
    ToggleSingleTrackPlayback tab s = toggleSongView tab s track := by
  have hvne : ¬ s.viewMode ≠ .songView := by simp [hv]
  have hpre2 : ¬ (s.isPlaying ∧
      (s.playbackMode = .chainView ∨ s.playbackMode = .phraseView)) := by
    rcases hpre with h | h
    · rintro ⟨-, hm | hm⟩ <;> rw [h] at hm <;> cases hm
    · rintro ⟨hp, -⟩
      rw [h] at hp
      cases hp
  unfold ToggleSingleTrackPlayback
  rw [if_neg hvne, hc, trackOf?_coe, if_neg hpre2]

/-- The Song-view body is a no-op for an inactive cursor track when the cell
is empty or its chain has no non-empty slot (playback.go:322-345). -/
theorem toggleSongView_start_noop (tab : Tables) (s : State) (track : Track)
    (hrow : 0 ≤ s.currentRow ∧ s.currentRow < 16)
    (hinactive : (s.transports track).active = false)
    (hcell : tab.songData track s.currentRow = -1 ∨
      firstNonEmptyChainSlot tab track (tab.songData track s.currentRow) = none) :
    toggleSongView tab s track = s := by
  simp only [toggleSongView]
  have h₁ : ¬ (s.currentRow < 0 ∨ 16 ≤ s.currentRow) := by omega
  rw [if_neg h₁, hinactive]
  simp only [Bool.and_false, Bool.false_eq_true, if_false]
  rcases hcell with h | h
  · rw [h]
    simp
  · by_cases hid : tab.songData track s.currentRow = -1
    · rw [hid]
      simp
    · rw [if_neg hid, h]

/-- C7 (amended) — Start on an inactive track (Song view, valid track and
row, no context-switch preamble) is a silent no-op exactly when the song
cell is empty or the cell's chain has no non-empty phrase slot; the whole
state is unchanged.  (A chain with a non-empty slot starts the track even
when none of its phrases has a playable row — see the counterexample.) -/
theorem start_silent_noop (tab : Tables) (s : State) (track : Track)
    (hv : s.viewMode = .songView) (hc : s.currentCol = (track.val : Int))
    (hpre : s.playbackMode = .songView ∨ s.isPlaying = false)
    (hrow : 0 ≤ s.currentRow ∧ s.currentRow < 16)
    (hinactive : (s.transports track).active = false)
    (hcell : tab.songData track s.currentRow = -1 ∨
      firstNonEmptyChainSlot tab track (tab.songData track s.currentRow) = none) :
    ToggleSingleTrackPlayback tab s = s := by
  rw [toggle_eq_toggleSongView tab s track hv hc hpre]
  exact toggleSongView_start_noop tab s track hrow hinactive hcell

/-- A transport that has never played. -/
def inertTransport : Transport :=
  { active := false, queued := 0, queuedRow := -1, songRow := 0, chain := -1,
    chainRow := 0, phrase := -1, rowInPhrase := 0, ticksLeft := 0 }

/-- Everything stopped, Song view, cursor on track 0 / song row 0. -/
def idleState : State :=
  { isPlaying := false
    playbackMode := .songView
    viewMode := .songView
    currentRow := 0
    currentCol := 0
    currentTrack := 0
    transports := fun _ => inertTransport
    playbackRow := -1
    playbackChain := -1
    playbackChainRow := -1
    playbackPhrase := -1
    tickCount := 0
    recordingActive := false
    currentlyPlayingFile := ""
    stopSignals := 0
    emitted := []
    incrementCounters := fun _ _ _ => 0 }

/-- Track 0, song row 0 holds chain 0; chain 0's only non-empty slot holds
phrase 5; every DT value is 0, so no phrase has a playable row. -/
def tabC7 : Tables :=
  { songData := fun track row => if track = 0 ∧ row = 0 then 0 else -1
    chains := fun track chainID chainRow =>
      if track = 0 ∧ chainID = 0 ∧ chainRow = 0 then 5 else -1
    phraseDT := fun _ _ _ => 0 }

set_option maxRecDepth 8000 in
/-- C7 counterexample — the claim calls Start a silent no-op whenever the
cell's chain contains no phrase with a playable row; at `tabC7`/`idleState`
the chain of the cell under the cursor has no playable phrase (every DT = 0),
yet Start activates track 0: the source validates only that some chain slot
is non-empty (playback.go:330-345). -/
theorem start_without_playable_rows_not_noop :
    (∀ c : ℕ, c < 16 → ∀ r : ℕ, r < 255 →
      ¬ (tabC7.chains 0 (tabC7.songData 0 0) (c : Int) ≠ -1 ∧
        1 ≤ tabC7.phraseDT 0 (tabC7.chains 0 (tabC7.songData 0 0) (c : Int)) (r : Int))) ∧
    (idleState.transports 0).active = false ∧
    ((ToggleSingleTrackPlayback tabC7 idleState).transports 0).active = true := by
  refine ⟨by decide, rfl, ?_⟩
  rfl

/-- Witness for `start_silent_noop`: with the cursor moved to the empty song
row 1, Start leaves the state untouched. -/
theorem start_silent_noop_witness :
    ({ idleState with currentRow := 1 } : State).viewMode = .songView ∧
    tabC7.songData 0 ({ idleState with currentRow := 1 } : State).currentRow = -1 ∧
    ToggleSingleTrackPlayback tabC7 { idleState with currentRow := 1 } =
      { idleState with currentRow := 1 } := by
  refine ⟨rfl, rfl, ?_⟩
  exact start_silent_noop tabC7 { idleState with currentRow := 1 } 0 rfl rfl
    (Or.inl rfl) (by constructor <;> decide) rfl (Or.inl rfl)

/-! ## Playback Scheduler -/

/-- Modelled from the spec: `IsRowPlayable` (called at playback.go:586, 638)
is not among the provided sources; per the glossary DT ≥ 1 marks a playable
row (the per-track resolver in src tests `dtValue >= 1` directly). -/
def IsRowPlayable (dt : Int) : Bool := decide (1 ≤ dt)

/-- Modelled from the spec: `firstPlayableRowInPhrase` for the shared
Chain/Phrase-mode position (the source helper `FindFirstNonEmptyRowInPhrase`
is not among the provided sources); the Chain/Phrase branches work on the
current track's phrase table (playback.go:579, 634), with not-found
represented by row 0 as for the per-track variant. -/
def FindFirstNonEmptyRowInPhrase (tab : Tables) (s : State) (phraseNum : Int) : Int :=
  FindFirstNonEmptyRowInPhraseForTrack tab s.currentTrack phraseNum

/-- The Chain-mode slot scans (playback.go:597-610 and 613-626): the first
slot in the list holding a valid phrase id
(`phraseID != -1 && phraseID >= 0 && phraseID < 255`). -/
def nextValidChainSlot (tab : Tables) (track : Track) (chainID : Int) :
    List Int → Option (Int × Int)
  | [] => none
  | i :: rest =>
    let phraseID := tab.chains track chainID i
    if phraseID ≠ -1 ∧ 0 ≤ phraseID ∧ phraseID < 255 then some (i, phraseID)
    else nextValidChainSlot tab track chainID rest

/-- The Chain-mode branch of AdvancePlayback (playback.go:576-630): next
playable row in the current phrase; else next valid slot of the chain; else
loop to the chain's first valid slot; else leave everything unchanged (the
source just logs and returns). -/
def advanceChainMode (tab : Tables) (s : State) : State :=
  match (if 0 ≤ s.playbackPhrase ∧ s.playbackPhrase < 255 then
      (List.range 255).find? fun (i : ℕ) =>
        decide (s.playbackRow < (i : Int)) &&
          IsRowPlayable (tab.phraseDT s.currentTrack s.playbackPhrase (i : Int))
    else none) with
  | some i => { s with playbackRow := (i : Int) }
  | none =>
    match nextValidChainSlot tab s.currentTrack s.playbackChain
        (intRange (s.playbackChainRow + 1) 16) with
    | some (i, phraseID) =>
      { s with
          playbackChainRow := i
          playbackPhrase := phraseID
          playbackRow := FindFirstNonEmptyRowInPhrase tab s phraseID }
    | none =>
      match nextValidChainSlot tab s.currentTrack s.playbackChain (intRange 0 16) with
      | some (i, phraseID) =>
        { s with
            playbackChainRow := i
            playbackPhrase := phraseID
            playbackRow := FindFirstNonEmptyRowInPhrase tab s phraseID }
      | none => s

/-- The Phrase-mode branch of AdvancePlayback (playback.go:631-650): next
playable row, else loop back to the phrase's first playable row.  (This Go
branch indexes the phrase table without a bounds guard; table lookups are
total here.) -/
def advancePhraseMode (tab : Tables) (s : State) : State :=
  match (List.range 255).find? fun (i : ℕ) =>
      decide (s.playbackRow < (i : Int)) &&
        IsRowPlayable (tab.phraseDT s.currentTrack s.playbackPhrase (i : Int)) with
  | some i => { s with playbackRow := (i : Int) }
  | none => { s with playbackRow := FindFirstNonEmptyRowInPhrase tab s s.playbackPhrase }

/-- Step 5 of the tick algorithm (playback.go:483-492): load the new tick
budget and emit the advanced row when its indices are in range. -/
def loadAndEmit (tab : Tables) (track : Track) (t : Transport) (boundary : Bool) :
    Transport × Bool × List Emit :=
  let t₁ := LoadTicksLeftForTrack tab track t
  if 0 ≤ t₁.phrase ∧ t₁.phrase < 255 ∧ 0 ≤ t₁.rowInPhrase ∧ t₁.rowInPhrase < 255 then
    (t₁, boundary, [(t₁.phrase, t₁.rowInPhrase, track)])
  else
    (t₁, boundary, [])

/-- One iteration of the per-track loop of Song-mode AdvancePlayback
(playback.go:413-493) on that track's transport (the loop body reads and
writes only the track's own `SongPlayback*` slots): decrement the tick
budget; at zero advance via the resolver; on failure deactivate and clear
the queue flag; at a song-level cell boundary (song row changed or chain
looped) execute a queued stop — converted into a queued start when a
distinct in-range jump target is set — skipping load/emit; otherwise load
the new budget and emit.  Returns (transport, boundary flag, emissions). -/
def decTick (t : Transport) : Transport :=
  if t.ticksLeft > 0 then { t with ticksLeft := t.ticksLeft - 1 } else t

def trackTickStep (tab : Tables) (track : Track) (t : Transport) :
    Transport × Bool × List Emit :=
  if ¬ t.active then (t, false, [])
  else
    let td := decTick t
    if td.ticksLeft > 0 then (td, false, [])
    else
      let oldSongRow := td.songRow
      let adv := advanceToNextPlayableRowForTrack tab track td
      let t₁ := adv.1
      if ¬ adv.2.1 then ({ t₁ with active := false, queued := 0 }, false, [])
      else
        let chainLooped := adv.2.2
        let newSongRow := t₁.songRow
        if newSongRow ≠ oldSongRow ∨ chainLooped = true then
          if t₁.queued = -1 then
            let jumpTargetRow := t₁.queuedRow
            if 0 ≤ jumpTargetRow ∧ jumpTargetRow < 16 ∧ jumpTargetRow ≠ newSongRow then
              ({ t₁ with active := false, queued := 1 }, true, [])
            else
              ({ t₁ with active := false, queued := 0, queuedRow := -1 }, true, [])
          else
            loadAndEmit tab track t₁ true
        else
          loadAndEmit tab track t₁ false

/-- The accumulator step of the per-track loop: update the track's transport,
or the boundary flag, append the emissions. -/
def perTrackStepState (tab : Tables) (acc : State × Bool) (track : Track) :
    State × Bool :=
  let r := trackTickStep tab track (acc.1.transports track)
  ({ acc.1 with
      transports := Function.update acc.1.transports track r.1
      emitted := acc.1.emitted ++ r.2.2 },
    acc.2 || r.2.1)

/-- The per-track loop of Song-mode AdvancePlayback (playback.go:411-494). -/
def perTrackPhase (tab : Tables) (s : State) : State × Bool :=
  (List.finRange 8).foldl (perTrackStepState tab) (s, false)

/-- One iteration of the queued-start pass (playback.go:499-553) on a
track's transport: activate a queued start after validating the queued row,
its chain and the chain's first phrase; on validation failure just clear the
queue flag.  Returns the transport and its emissions. -/
def queuedStartStep (tab : Tables) (track : Track) (t : Transport) :
    Transport × List Emit :=
  if t.queued = 1 ∧ t.active = false then
    let songRow := t.queuedRow
    if songRow < 0 ∨ 16 ≤ songRow then ({ t with queued := 0 }, [])
    else
      let chainID := tab.songData track songRow
      if chainID = -1 then ({ t with queued := 0 }, [])
      else
        match firstNonEmptyChainSlot tab track chainID with
        | none => ({ t with queued := 0 }, [])
        | some (firstChainRow, firstPhraseID) =>
          let rip := FindFirstNonEmptyRowInPhraseForTrack tab track firstPhraseID
          let t₁ :=
            { t with
                active := true
                queued := 0
                songRow := songRow
                chain := chainID
                chainRow := firstChainRow
                phrase := firstPhraseID
                rowInPhrase := rip }
          let t₂ := LoadTicksLeftForTrack tab track t₁
          (t₂, [(firstPhraseID, rip, track)])
  else (t, [])

/-- The accumulator step of the queued-start pass. -/
def queuedStartStepState (tab : Tables) (s : State) (track : Track) : State :=
  let r := queuedStartStep tab track (s.transports track)
  { s with
      transports := Function.update s.transports track r.1
      emitted := s.emitted ++ r.2 }

/-- The queued-start pass of Song-mode AdvancePlayback (playback.go:496-554),
run only when some track reached a song-level cell boundary. -/
def queuedStartPhase (tab : Tables) (s : State) : State :=
  (List.finRange 8).foldl (queuedStartStepState tab) s

/-- The final all-inactive check of Song-mode AdvancePlayback
(playback.go:556-575). -/
def stopCheckPhase (s : State) : State :=
  if (List.finRange 8).all fun u => !(s.transports u).active then
    fullStopEffects { s with isPlaying := false }
  else s

/-- The Song-mode tick pipeline before the final all-inactive check
(playback.go:411-554): the per-track loop followed by the queued-start pass,
the latter gated on some track having reached a song-level cell boundary. -/
def songTickMid (tab : Tables) (s : State) : State :=
  let pr := perTrackPhase tab s
  if pr.2 then queuedStartPhase tab pr.1 else pr.1

/-- AdvancePlayback (playback.go:401-651): bump the blink tick counter, then
dispatch on the playback mode: Song mode runs the per-track loop, the
queued-start pass and the all-inactive stop check; Chain and Phrase modes
advance the shared position. -/
def AdvancePlayback (tab : Tables) (s : State) : State :=
  let s₀ := { s with tickCount := s.tickCount + 1 }
  if s₀.playbackMode = .songView then
    stopCheckPhase (songTickMid tab s₀)
  else if s₀.playbackMode = .chainView then
    advanceChainMode tab s₀
  else
    advancePhraseMode tab s₀

theorem nextValidChainSlot_eq_none (tab : Tables) (track : Track) (chainID : Int)
    (h : ∀ c : ℕ, c < 16 →
      ¬ (tab.chains track chainID (c : Int) ≠ -1 ∧
         0 ≤ tab.chains track chainID (c : Int) ∧
         tab.chains track chainID (c : Int) < 255)) :
    ∀ l : List Int, (∀ i ∈ l, 0 ≤ i ∧ i < 16) →
      nextValidChainSlot tab track chainID l = none := by
  intro l
  induction l with
  | nil => intro _; rfl
  | cons i rest ih =>
    intro hl
    have hi := hl i (List.mem_cons_self i rest)
    unfold nextValidChainSlot
    rw [if_neg]
    · exact ih fun j hj => hl j (List.mem_cons_of_mem i hj)
    · have h₂ := h i.toNat (by omega)
      rw [Int.toNat_of_nonneg hi.1] at h₂
      exact h₂

/-- C10 — Chain-mode dead end: when the current chain has no slot holding a
valid phrase id (all 16 slots empty or out of range) and the current phrase
has no playable row after the current position, AdvancePlayback returns with
`playbackRow`, `playbackChainRow`, `playbackPhrase` and the global
`isPlaying` flag all unchanged — playback is not halted and the tick loop
keeps running on the stale position. -/
theorem chainMode_deadend_keeps_position (tab : Tables) (s : State)
    (hm : s.playbackMode = .chainView)
    (hnoslot : ∀ c : ℕ, c < 16 →
      ¬ (tab.chains s.currentTrack s.playbackChain (c : Int) ≠ -1 ∧
         0 ≤ tab.chains s.currentTrack s.playbackChain (c : Int) ∧
         tab.chains s.currentTrack s.playbackChain (c : Int) < 255))
    (hnorow : ∀ i : ℕ, i < 255 → s.playbackRow < (i : Int) →
      ¬ 1 ≤ tab.phraseDT s.currentTrack s.playbackPhrase (i : Int)) :
    (AdvancePlayback tab s).playbackRow = s.playbackRow ∧
    (AdvancePlayback tab s).playbackChainRow = s.playbackChainRow ∧
    (AdvancePlayback tab s).playbackPhrase = s.playbackPhrase ∧
    (AdvancePlayback tab s).isPlaying = s.isPlaying := by
  have hadv : AdvancePlayback tab s =
      advanceChainMode tab { s with tickCount := s.tickCount + 1 } := by
    simp only [AdvancePlayback]
    rw [if_neg (by simp [hm]), if_pos (by simp [hm])]
  set s₀ : State := { s with tickCount := s.tickCount + 1 } with hs₀
  have hfind : (if 0 ≤ s₀.playbackPhrase ∧ s₀.playbackPhrase < 255 then
      (List.range 255).find? fun (i : ℕ) =>
        decide (s₀.playbackRow < (i : Int)) &&
          IsRowPlayable (tab.phraseDT s₀.currentTrack s₀.playbackPhrase (i : Int))
    else none) = none := by
    by_cases hp : 0 ≤ s₀.playbackPhrase ∧ s₀.playbackPhrase < 255
    · rw [if_pos hp]
      refine List.find?_eq_none.mpr ?_
      intro i hi
      rw [List.mem_range] at hi
      simp only [IsRowPlayable, Bool.and_eq_true, decide_eq_true_eq, not_and]
      intro hlt
      exact hnorow i hi hlt
    · rw [if_neg hp]
  have hslots : ∀ l : List Int, (∀ i ∈ l, 0 ≤ i ∧ i < 16) →
      nextValidChainSlot tab s₀.currentTrack s₀.playbackChain l = none :=
    nextValidChainSlot_eq_none tab s.currentTrack s.playbackChain hnoslot
  have hcm : advanceChainMode tab s₀ = s₀ := by
    unfold advanceChainMode
    rw [hfind]
    rw [hslots (intRange (s₀.playbackChainRow + 1) 16)
      (fun i hi => by rw [mem_intRange] at hi; omega)]
    rw [hslots (intRange 0 16) (fun i hi => by rw [mem_intRange] at hi; omega)]
  rw [hadv, hcm]
  exact ⟨rfl, rfl, rfl, rfl⟩

set_option maxRecDepth 8000 in
/-- Witness for `chainMode_deadend_keeps_position`: Chain mode playing chain
7 (no valid slots anywhere in `tabW` chain 7) with the phrase position past
its last playable row. -/
theorem chainMode_deadend_keeps_position_witness :
    (({ idleState with
        isPlaying := true, playbackMode := .chainView, playbackChain := 7,
        playbackChainRow := 0, playbackPhrase := 0, playbackRow := 0 } : State)).playbackMode
      = .chainView ∧
    (AdvancePlayback tabW { idleState with
        isPlaying := true, playbackMode := .chainView, playbackChain := 7,
        playbackChainRow := 0, playbackPhrase := 0, playbackRow := 0 }).playbackRow = 0 ∧
    (AdvancePlayback tabW { idleState with
        isPlaying := true, playbackMode := .chainView, playbackChain := 7,
        playbackChainRow := 0, playbackPhrase := 0, playbackRow := 0 }).isPlaying = true := by
  refine ⟨rfl, ?_, ?_⟩
  · exact (chainMode_deadend_keeps_position tabW _ rfl (by decide) (by decide)).1
  · exact (chainMode_deadend_keeps_position tabW _ rfl (by decide) (by decide)).2.2.2

/-! ### Fold characterization of the scheduler phases

Each iteration of the per-track loop and of the queued-start pass reads and
writes only its own track's transport, so the folds are characterized
pointwise. -/

theorem list_any_congr {α : Type _} {l : List α} {f g : α → Bool}
    (h : ∀ x ∈ l, f x = g x) : l.any f = l.any g := by
  induction l with
  | nil => rfl
  | cons x xs ih =>
    simp only [List.any_cons]
    rw [h x (List.mem_cons_self x xs), ih fun y hy => h y (List.mem_cons_of_mem x hy)]

theorem list_flatMap_congr {α β : Type _} {l : List α} {f g : α → List β}
    (h : ∀ x ∈ l, f x = g x) : l.flatMap f = l.flatMap g := by
  induction l with
  | nil => rfl
  | cons x xs ih =>
    show f x ++ xs.flatMap f = g x ++ xs.flatMap g
    rw [h x (List.mem_cons_self x xs), ih fun y hy => h y (List.mem_cons_of_mem x hy)]

theorem perTrackFold_transports (tab : Tables) :
    ∀ l : List Track, l.Nodup → ∀ (acc : State × Bool) (u : Track),
      (l.foldl (perTrackStepState tab) acc).1.transports u =
        (if u ∈ l then (trackTickStep tab u (acc.1.transports u)).1
         else acc.1.transports u) := by
  intro l
  induction l with
  | nil =>
    intro _ acc u
    simp
  | cons t rest ih =>
    intro hnd acc u
    rw [List.nodup_cons] at hnd
    simp only [List.foldl_cons]
    rw [ih hnd.2 (perTrackStepState tab acc t) u]
    by_cases hu : u ∈ rest
    · rw [if_pos hu, if_pos (List.mem_cons_of_mem t hu)]
      have hne : u ≠ t := fun h => hnd.1 (h ▸ hu)
      simp only [perTrackStepState]
      rw [Function.update_noteq hne]
    · rw [if_neg hu]
      by_cases hut : u = t
      · subst hut
        rw [if_pos (List.mem_cons_self u rest)]
        simp only [perTrackStepState]
        rw [Function.update_same]
      · rw [if_neg (by simp [hut, hu])]
        simp only [perTrackStepState]
        rw [Function.update_noteq hut]

theorem perTrackFold_flag (tab : Tables) :
    ∀ l : List Track, l.Nodup → ∀ acc : State × Bool,
      (l.foldl (perTrackStepState tab) acc).2 =
        (acc.2 || l.any fun u => (trackTickStep tab u (acc.1.transports u)).2.1) := by
  intro l
  induction l with
  | nil => intro _ acc; simp
  | cons t rest ih =>
    intro hnd acc
    rw [List.nodup_cons] at hnd
    simp only [List.foldl_cons, List.any_cons]
    rw [ih hnd.2 (perTrackStepState tab acc t)]
    have hstep₂ : (perTrackStepState tab acc t).2 =
        (acc.2 || (trackTickStep tab t (acc.1.transports t)).2.1) := rfl
    rw [hstep₂]
    have hcongr : (rest.any fun u =>
        (trackTickStep tab u ((perTrackStepState tab acc t).1.transports u)).2.1) =
        (rest.any fun u => (trackTickStep tab u (acc.1.transports u)).2.1) := by
      refine list_any_congr fun u hu => ?_
      have hne : u ≠ t := fun h => hnd.1 (h ▸ hu)
      simp only [perTrackStepState]
      rw [Function.update_noteq hne]
    rw [hcongr, Bool.or_assoc]

theorem perTrackFold_emitted (tab : Tables) :
    ∀ l : List Track, l.Nodup → ∀ acc : State × Bool,
      (l.foldl (perTrackStepState tab) acc).1.emitted =
        acc.1.emitted ++
          l.flatMap (fun u => (trackTickStep tab u (acc.1.transports u)).2.2) := by
  intro l
  induction l with
  | nil => intro _ acc; simp
  | cons t rest ih =>
    intro hnd acc
    rw [List.nodup_cons] at hnd
    simp only [List.foldl_cons]
    rw [ih hnd.2 (perTrackStepState tab acc t)]
    have hcongr : (rest.flatMap fun u =>
        (trackTickStep tab u ((perTrackStepState tab acc t).1.transports u)).2.2) =
        (rest.flatMap fun u => (trackTickStep tab u (acc.1.transports u)).2.2) := by
      refine list_flatMap_congr fun u hu => ?_
      have hne : u ≠ t := fun h => hnd.1 (h ▸ hu)
      simp only [perTrackStepState]
      rw [Function.update_noteq hne]
    have hem : (perTrackStepState tab acc t).1.emitted =
        acc.1.emitted ++ (trackTickStep tab t (acc.1.transports t)).2.2 := rfl
    rw [hcongr, hem, List.append_assoc]
    rfl

theorem perTrackFold_globals (tab : Tables) :
    ∀ (l : List Track) (acc : State × Bool),
      (l.foldl (perTrackStepState tab) acc).1.isPlaying = acc.1.isPlaying ∧
      (l.foldl (perTrackStepState tab) acc).1.recordingActive = acc.1.recordingActive ∧
      (l.foldl (perTrackStepState tab) acc).1.currentlyPlayingFile =
        acc.1.currentlyPlayingFile ∧
      (l.foldl (perTrackStepState tab) acc).1.stopSignals = acc.1.stopSignals ∧
      (l.foldl (perTrackStepState tab) acc).1.playbackMode = acc.1.playbackMode := by
  intro l
  induction l with
  | nil => intro acc; exact ⟨rfl, rfl, rfl, rfl, rfl⟩
  | cons t rest ih =>
    intro acc
    simp only [List.foldl_cons]
    exact ih (perTrackStepState tab acc t)

theorem queuedStartFold_transports (tab : Tables) :
    ∀ l : List Track, l.Nodup → ∀ (s : State) (u : Track),
      (l.foldl (queuedStartStepState tab) s).transports u =
        (if u ∈ l then (queuedStartStep tab u (s.transports u)).1
         else s.transports u) := by
  intro l
  induction l with
  | nil => intro _ s u; simp
  | cons t rest ih =>
    intro hnd s u
    rw [List.nodup_cons] at hnd
    simp only [List.foldl_cons]
    rw [ih hnd.2 (queuedStartStepState tab s t) u]
    by_cases hu : u ∈ rest
    · rw [if_pos hu, if_pos (List.mem_cons_of_mem t hu)]
      have hne : u ≠ t := fun h => hnd.1 (h ▸ hu)
      simp only [queuedStartStepState]
      rw [Function.update_noteq hne]
    · rw [if_neg hu]
      by_cases hut : u = t
      · subst hut
        rw [if_pos (List.mem_cons_self u rest)]
        simp only [queuedStartStepState]
        rw [Function.update_same]
      · rw [if_neg (by simp [hut, hu])]
        simp only [queuedStartStepState]
        rw [Function.update_noteq hut]

theorem queuedStartFold_globals (tab : Tables) :
    ∀ (l : List Track) (s : State),
      (l.foldl (queuedStartStepState tab) s).isPlaying = s.isPlaying ∧
      (l.foldl (queuedStartStepState tab) s).recordingActive = s.recordingActive ∧
      (l.foldl (queuedStartStepState tab) s).currentlyPlayingFile =
        s.currentlyPlayingFile ∧
      (l.foldl (queuedStartStepState tab) s).stopSignals = s.stopSignals ∧
      (l.foldl (queuedStartStepState tab) s).playbackMode = s.playbackMode := by
  intro l
  induction l with
  | nil => intro s; exact ⟨rfl, rfl, rfl, rfl, rfl⟩
  | cons t rest ih =>
    intro s
    simp only [List.foldl_cons]
    exact ih (queuedStartStepState tab s t)

theorem perTrackPhase_transports (tab : Tables) (s : State) (u : Track) :
    (perTrackPhase tab s).1.transports u = (trackTickStep tab u (s.transports u)).1 := by
  unfold perTrackPhase
  rw [perTrackFold_transports tab (List.finRange 8) (List.nodup_finRange 8) (s, false) u]
  rw [if_pos (List.mem_finRange u)]

theorem perTrackPhase_flag (tab : Tables) (s : State) :
    (perTrackPhase tab s).2 =
      ((List.finRange 8).any fun u => (trackTickStep tab u (s.transports u)).2.1) := by
  unfold perTrackPhase
  rw [perTrackFold_flag tab (List.finRange 8) (List.nodup_finRange 8) (s, false)]
  rw [Bool.false_or]

theorem perTrackPhase_emitted (tab : Tables) (s : State) :
    (perTrackPhase tab s).1.emitted =
      s.emitted ++
        (List.finRange 8).flatMap (fun u => (trackTickStep tab u (s.transports u)).2.2) := by
  unfold perTrackPhase
  exact perTrackFold_emitted tab (List.finRange 8) (List.nodup_finRange 8) (s, false)

theorem queuedStartPhase_transports (tab : Tables) (s : State) (u : Track) :
    (queuedStartPhase tab s).transports u = (queuedStartStep tab u (s.transports u)).1 := by
  unfold queuedStartPhase
  rw [queuedStartFold_transports tab (List.finRange 8) (List.nodup_finRange 8) s u]
  rw [if_pos (List.mem_finRange u)]

/-! ### Small step lemmas -/

theorem trackTickStep_inactive (tab : Tables) (u : Track) {t : Transport}
    (h : t.active = false) : trackTickStep tab u t = (t, false, []) := by
  unfold trackTickStep
  rw [if_pos (by simp [h])]

theorem fullStopEffects_fields (s : State) :
    (fullStopEffects s).transports = s.transports ∧
    (fullStopEffects s).isPlaying = s.isPlaying ∧
    (fullStopEffects s).recordingActive = false ∧
    (fullStopEffects s).currentlyPlayingFile = "" ∧
    (fullStopEffects s).stopSignals = s.stopSignals + 1 := by
  unfold fullStopEffects
  by_cases h₁ : s.recordingActive <;> by_cases h₂ : s.currentlyPlayingFile = "" <;>
    simp [h₁, h₂]

theorem stopCheckPhase_transports (s : State) :
    (stopCheckPhase s).transports = s.transports := by
  unfold stopCheckPhase
  split
  · exact (fullStopEffects_fields _).1
  · rfl

theorem setTransport_active_eq {s : State} {track : Track} {tNew : Transport}
    (h : tNew.active = (s.transports track).active) :
    ∀ u, ((setTransport s track tNew).transports u).active =
      (s.transports u).active := by
  intro u
  by_cases hu : u = track
  · subst hu
    show (Function.update s.transports u tNew u).active = (s.transports u).active
    rw [Function.update_same, h]
  · show (Function.update s.transports track tNew u).active = (s.transports u).active
    rw [Function.update_noteq hu]

/-- Global Song-mode invariant: `isPlaying` iff some per-track transport is
active. -/
def PlayingIffSomeActive (s : State) : Prop :=
  s.isPlaying = true ↔ ∃ u : Track, (s.transports u).active = true

/-- With every transport inactive, the per-track loop is a no-op on the
transports and reports no cell boundary. -/
theorem perTrackPhase_of_all_inactive (tab : Tables) (s : State)
    (h : ∀ u : Track, (s.transports u).active = false) :
    (∀ u : Track, (perTrackPhase tab s).1.transports u = s.transports u) ∧
    (perTrackPhase tab s).2 = false := by
  constructor
  · intro u
    rw [perTrackPhase_transports, trackTickStep_inactive tab u (h u)]
  · rw [perTrackPhase_flag]
    refine List.any_eq_false.mpr ?_
    intro u _
    rw [trackTickStep_inactive tab u (h u)]
    simp

theorem startTrackImmediate_isPlaying (tab : Tables) (s : State) (track : Track)
    (songRow chainID firstChainRow firstPhraseID : Int) :
    (startTrackImmediate tab s track songRow chainID firstChainRow firstPhraseID).isPlaying
      = true := by
  unfold startTrackImmediate
  by_cases hp : s.isPlaying = true <;> simp [hp, setTransport]

theorem startTrackImmediate_active_self (tab : Tables) (s : State) (track : Track)
    (songRow chainID firstChainRow firstPhraseID : Int) :
    ((startTrackImmediate tab s track songRow chainID firstChainRow
        firstPhraseID).transports track).active = true := by
  unfold startTrackImmediate
  by_cases hp : s.isPlaying = true <;>
    simp [hp, setTransport, LoadTicksLeftForTrack, Function.update_same]

theorem inv_setTransport {s : State} {track : Track} {tNew : Transport}
    (h : tNew.active = (s.transports track).active)
    (hinv : PlayingIffSomeActive s) :
    PlayingIffSomeActive (setTransport s track tNew) := by
  unfold PlayingIffSomeActive at *
  have hp : (setTransport s track tNew).isPlaying = s.isPlaying := rfl
  rw [hp]
  constructor
  · intro hpl
    obtain ⟨u, hu⟩ := hinv.mp hpl
    refine ⟨u, ?_⟩
    rw [setTransport_active_eq h u]
    exact hu
  · rintro ⟨u, hu⟩
    rw [setTransport_active_eq h u] at hu
    exact hinv.mpr ⟨u, hu⟩

theorem resetAllSongPlayback_active (s : State) (u : Track) :
    ((resetAllSongPlayback s).transports u).active = false := rfl

theorem inv_fullStop_allInactive {s : State}
    (h : ∀ u : Track, (s.transports u).active = false) :
    PlayingIffSomeActive (fullStopEffects { s with isPlaying := false }) := by
  unfold PlayingIffSomeActive
  constructor
  · intro hpl
    rw [(fullStopEffects_fields _).2.1] at hpl
    cases hpl
  · rintro ⟨u, hu⟩
    rw [(fullStopEffects_fields _).1] at hu
    have hu₂ : (s.transports u).active = true := hu
    rw [h u] at hu₂
    cases hu₂

theorem inv_preamble (s : State) :
    PlayingIffSomeActive
      (resetAllSongPlayback (fullStopEffects { s with isPlaying := false })) := by
  unfold PlayingIffSomeActive
  constructor
  · intro hpl
    have hpl₂ : (fullStopEffects { s with isPlaying := false }).isPlaying = true := hpl
    rw [(fullStopEffects_fields _).2.1] at hpl₂
    cases hpl₂
  · rintro ⟨u, hu⟩
    rw [resetAllSongPlayback_active] at hu
    cases hu

/-- The Song-view toggle body preserves the isPlaying-iff-some-active
invariant. -/
theorem toggleSongView_preserves_inv (tab : Tables) (s : State) (track : Track)
    (hinv : PlayingIffSomeActive s) :
    PlayingIffSomeActive (toggleSongView tab s track) := by
  simp only [toggleSongView]
  by_cases h₀ : s.currentRow < 0 ∨ 16 ≤ s.currentRow
  · rw [if_pos h₀]
    exact hinv
  rw [if_neg h₀]
  by_cases hict : (s.isPlaying && decide (s.playbackMode = ViewMode.songView) &&
      (s.transports track).active) = true
  · rw [if_pos hict]
    have hsplit : s.isPlaying = true ∧
        decide (s.playbackMode = ViewMode.songView) = true ∧
        (s.transports track).active = true := by
      simpa [and_assoc] using hict
    have hplay := hsplit.1
    have hmode := hsplit.2.1
    by_cases hjump : (s.transports track).songRow ≠ s.currentRow
    · rw [if_pos hjump]
      by_cases hcid : tab.songData track s.currentRow = -1
      · rw [if_pos hcid]
        exact hinv
      rw [if_neg hcid]
      by_cases hvalid : ¬ chainHasValidPhrase tab track (tab.songData track s.currentRow) = true
      · rw [if_pos hvalid]
        exact hinv
      · rw [if_neg hvalid]
        exact inv_setTransport rfl hinv
    · rw [if_neg hjump]
      by_cases hother : (s.isPlaying && decide (s.playbackMode = ViewMode.songView) &&
          ((List.finRange 8).any fun u =>
            decide (u ≠ track) && (s.transports u).active)) = true
      · rw [if_pos hother]
        exact inv_setTransport rfl hinv
      · rw [if_neg hother]
        have hany : ((List.finRange 8).any fun u =>
            decide (u ≠ track) && (s.transports u).active) = false := by
          by_contra hco
          rw [Bool.not_eq_false] at hco
          refine hother ?_
          rw [hplay, hmode, hco]
          rfl

        refine inv_fullStop_allInactive ?_
        intro u
        by_cases hu : u = track
        · subst hu
          show (Function.update s.transports u
            { s.transports u with active := false, queued := 0, queuedRow := -1 } u).active
              = false
          rw [Function.update_same]
        · show (Function.update s.transports track
            { s.transports track with active := false, queued := 0, queuedRow := -1 } u).active
              = false
          rw [Function.update_noteq hu]
          have := List.any_eq_false.mp hany u (List.mem_finRange u)
          simpa [hu] using this
  · rw [if_neg hict]
    by_cases hcid : tab.songData track s.currentRow = -1
    · rw [if_pos hcid]
      exact hinv
    rw [if_neg hcid]
    cases hslot : firstNonEmptyChainSlot tab track (tab.songData track s.currentRow) with
    | none => exact hinv
    | some v =>
      obtain ⟨firstChainRow, firstPhraseID⟩ := v
      dsimp only
      by_cases hother : (s.isPlaying && decide (s.playbackMode = ViewMode.songView) &&
          ((List.finRange 8).any fun u =>
            decide (u ≠ track) && (s.transports u).active)) = true
      · rw [if_pos hother]
        exact inv_setTransport rfl hinv
      · rw [if_neg hother]
        unfold PlayingIffSomeActive
        rw [startTrackImmediate_isPlaying]
        exact iff_of_true rfl ⟨track, startTrackImmediate_active_self tab s track
          s.currentRow (tab.songData track s.currentRow) firstChainRow firstPhraseID⟩

theorem perTrackPhase_globals (tab : Tables) (s : State) :
    (perTrackPhase tab s).1.isPlaying = s.isPlaying ∧
    (perTrackPhase tab s).1.recordingActive = s.recordingActive ∧
    (perTrackPhase tab s).1.currentlyPlayingFile = s.currentlyPlayingFile ∧
    (perTrackPhase tab s).1.stopSignals = s.stopSignals ∧
    (perTrackPhase tab s).1.playbackMode = s.playbackMode :=
  perTrackFold_globals tab (List.finRange 8) (s, false)

theorem queuedStartPhase_globals (tab : Tables) (s : State) :
    (queuedStartPhase tab s).isPlaying = s.isPlaying ∧
    (queuedStartPhase tab s).recordingActive = s.recordingActive ∧
    (queuedStartPhase tab s).currentlyPlayingFile = s.currentlyPlayingFile ∧
    (queuedStartPhase tab s).stopSignals = s.stopSignals ∧
    (queuedStartPhase tab s).playbackMode = s.playbackMode :=
  queuedStartFold_globals tab (List.finRange 8) s

theorem songTickMid_globals (tab : Tables) (s : State) :
    (songTickMid tab s).isPlaying = s.isPlaying ∧
    (songTickMid tab s).recordingActive = s.recordingActive ∧
    (songTickMid tab s).currentlyPlayingFile = s.currentlyPlayingFile ∧
    (songTickMid tab s).stopSignals = s.stopSignals ∧
    (songTickMid tab s).playbackMode = s.playbackMode := by
  unfold songTickMid
  by_cases h : (perTrackPhase tab s).2 = true
  · rw [if_pos h]
    have h₁ := queuedStartPhase_globals tab (perTrackPhase tab s).1
    have h₂ := perTrackPhase_globals tab s
    exact ⟨h₁.1.trans h₂.1, h₁.2.1.trans h₂.2.1, h₁.2.2.1.trans h₂.2.2.1,
      h₁.2.2.2.1.trans h₂.2.2.2.1, h₁.2.2.2.2.trans h₂.2.2.2.2⟩
  · rw [if_neg h]
    exact perTrackPhase_globals tab s

theorem inv_stopCheckPhase (m : State)
    (h : (∃ u : Track, (m.transports u).active = true) → m.isPlaying = true) :
    PlayingIffSomeActive (stopCheckPhase m) := by
  unfold stopCheckPhase
  by_cases hall : ((List.finRange 8).all fun u => !(m.transports u).active) = true
  · rw [if_pos hall]
    refine inv_fullStop_allInactive ?_
    intro u
    have := List.all_eq_true.mp hall u (List.mem_finRange u)
    simpa using this
  · rw [if_neg hall]
    have hex : ∃ u : Track, (m.transports u).active = true := by
      by_contra hno
      push_neg at hno
      refine hall (List.all_eq_true.mpr fun u _ => ?_)
      have hf : (m.transports u).active = false := by
        cases hq : (m.transports u).active
        · rfl
        · exact absurd hq (hno u)
      simp [hf]
    exact iff_of_true (h hex) hex

theorem stopCheckPhase_all_inactive (m : State)
    (h : ∀ u : Track, ((stopCheckPhase m).transports u).active = false) :
    stopCheckPhase m = fullStopEffects { m with isPlaying := false } := by
  have h₂ : ∀ u : Track, (m.transports u).active = false := by
    intro u
    have hu := h u
    rw [stopCheckPhase_transports m] at hu
    exact hu
  unfold stopCheckPhase
  rw [if_pos (List.all_eq_true.mpr fun u _ => by simp [h₂ u])]

theorem advance_song_eq (tab : Tables) (s : State)
    (hm : s.playbackMode = .songView) :
    AdvancePlayback tab s =
      stopCheckPhase (songTickMid tab { s with tickCount := s.tickCount + 1 }) := by
  unfold AdvancePlayback
  dsimp only
  rw [if_pos hm]

theorem cancel_preserves_inv (s : State) (hinv : PlayingIffSomeActive s) :
    PlayingIffSomeActive (CancelQueuedAction s) := by
  unfold CancelQueuedAction
  by_cases hv : s.viewMode ≠ .songView
  · rw [if_pos hv]
    exact hinv
  rw [if_neg hv]
  cases htr : trackOf? s.currentCol with
  | none => exact hinv
  | some track =>
    dsimp only
    by_cases hq : (s.transports track).queued ≠ 0
    · rw [if_pos hq]
      exact inv_setTransport rfl hinv
    · rw [if_neg hq]
      exact hinv

theorem toggle_preserves_inv (tab : Tables) (s : State)
    (hinv : PlayingIffSomeActive s) :
    PlayingIffSomeActive (ToggleSingleTrackPlayback tab s) := by
  unfold ToggleSingleTrackPlayback
  by_cases hv : s.viewMode ≠ .songView
  · rw [if_pos hv]
    exact hinv
  rw [if_neg hv]
  cases htr : trackOf? s.currentCol with
  | none => exact hinv
  | some track =>
    dsimp only
    by_cases hpre : s.isPlaying ∧
        (s.playbackMode = .chainView ∨ s.playbackMode = .phraseView)
    · rw [if_pos hpre]
      exact toggleSongView_preserves_inv tab _ track (inv_preamble s)
    · rw [if_neg hpre]
      exact toggleSongView_preserves_inv tab s track hinv

theorem advance_preserves_inv (tab : Tables) (s : State)
    (hm : s.playbackMode = .songView) (hinv : PlayingIffSomeActive s) :
    PlayingIffSomeActive (AdvancePlayback tab s) := by
  rw [advance_song_eq tab s hm]
  set s₀ : State := { s with tickCount := s.tickCount + 1 } with hs₀
  have hinv₀ : PlayingIffSomeActive s₀ := hinv
  refine inv_stopCheckPhase _ ?_
  intro hex
  rw [(songTickMid_globals tab s₀).1]
  unfold songTickMid at hex
  by_cases hflag : (perTrackPhase tab s₀).2 = true
  · have hstep : ∃ u : Track, (trackTickStep tab u (s₀.transports u)).2.1 = true := by
      rw [perTrackPhase_flag] at hflag
      obtain ⟨u, -, hu⟩ := List.any_eq_true.mp hflag
      exact ⟨u, hu⟩
    obtain ⟨u, hu⟩ := hstep
    have hact : (s₀.transports u).active = true := by
      by_contra hno
      rw [Bool.not_eq_true] at hno
      rw [trackTickStep_inactive tab u hno] at hu
      simp at hu
    exact hinv₀.mpr ⟨u, hact⟩
  · rw [if_neg hflag] at hex
    obtain ⟨u, hu⟩ := hex
    rw [perTrackPhase_transports] at hu
    have hact : (s₀.transports u).active = true := by
      by_contra hno
      rw [Bool.not_eq_true] at hno
      rw [trackTickStep_inactive tab u hno] at hu
      have hno₂ : (s.transports u).active = false := hno
      rw [hno₂] at hu
      cases hu
    exact hinv₀.mpr ⟨u, hact⟩

/-- C5 — in Song playback mode the global `isPlaying` flag is true iff some
per-track transport is active: the relationship is preserved by the
transport-control operations (toggle with all its start/stop/jump/queue
branches, and cancel) and by the scheduler tick; and whenever a tick ends
with every transport inactive, that tick has set `isPlaying := false` and
triggered the full stop — recording state cleared, playing-file state
cleared, engine-stop signal sent. -/
theorem playing_iff_some_transport_active (tab : Tables) (s : State)
    (hinv : PlayingIffSomeActive s) :
    PlayingIffSomeActive (ToggleSingleTrackPlayback tab s) ∧
    PlayingIffSomeActive (CancelQueuedAction s) ∧
    (s.playbackMode = .songView → PlayingIffSomeActive (AdvancePlayback tab s)) ∧
    (s.playbackMode = .songView →
      (∀ u : Track, ((AdvancePlayback tab s).transports u).active = false) →
      (AdvancePlayback tab s).isPlaying = false ∧
      (AdvancePlayback tab s).recordingActive = false ∧
      (AdvancePlayback tab s).currentlyPlayingFile = "" ∧
      (AdvancePlayback tab s).stopSignals = s.stopSignals + 1) := by
  refine ⟨toggle_preserves_inv tab s hinv, cancel_preserves_inv s hinv,
    fun hm => advance_preserves_inv tab s hm hinv, fun hm hall => ?_⟩
  rw [advance_song_eq tab s hm] at hall ⊢
  rw [stopCheckPhase_all_inactive _ hall]
  have hf := fullStopEffects_fields
    ({ songTickMid tab { s with tickCount := s.tickCount + 1 } with isPlaying := false } : State)
  have hg := songTickMid_globals tab ({ s with tickCount := s.tickCount + 1 } : State)
  refine ⟨?_, hf.2.2.1, hf.2.2.2.1, ?_⟩
  · rw [hf.2.1]
  · rw [hf.2.2.2.2]
    have hmidstop : (songTickMid tab
        { s with tickCount := s.tickCount + 1 }).stopSignals = s.stopSignals :=
      hg.2.2.2.1
    have hlit : ({ songTickMid tab { s with tickCount := s.tickCount + 1 } with
        isPlaying := false } : State).stopSignals =
        (songTickMid tab { s with tickCount := s.tickCount + 1 }).stopSignals := rfl
    rw [hlit, hmidstop]

/-- One active track (track 0, ticks exhausted next tick) playing a chain
whose phrases have no playable rows: its sequence is exhausted on the next
tick, deactivating it and stopping playback. -/
def sC5 : State :=
  { idleState with
      isPlaying := true
      transports := fun t =>
        if t = 0 then
          { active := true, queued := 0, queuedRow := -1, songRow := 0, chain := 0,
            chainRow := 0, phrase := 5, rowInPhrase := 0, ticksLeft := 1 }
        else inertTransport }

set_option maxRecDepth 100000 in
/-- Witness for `playing_iff_some_transport_active`: at `sC5` the invariant
holds, is preserved by the toggle, and the tick that exhausts the last
active track performs the full stop. -/
theorem playing_iff_some_transport_active_witness :
    PlayingIffSomeActive sC5 ∧
    PlayingIffSomeActive (ToggleSingleTrackPlayback tabC7 sC5) ∧
    (AdvancePlayback tabC7 sC5).isPlaying = false ∧
    (AdvancePlayback tabC7 sC5).stopSignals = sC5.stopSignals + 1 := by
  have hinv : PlayingIffSomeActive sC5 := by
    unfold PlayingIffSomeActive
    decide
  have hall : ∀ u : Track, ((AdvancePlayback tabC7 sC5).transports u).active = false := by
    decide
  refine ⟨hinv, (playing_iff_some_transport_active tabC7 sC5 hinv).1, ?_, ?_⟩
  · exact ((playing_iff_some_transport_active tabC7 sC5 hinv).2.2.2 rfl hall).1
  · exact ((playing_iff_some_transport_active tabC7 sC5 hinv).2.2.2 rfl hall).2.2.2

/-! ### Position-validity invariant (C6) -/

/-- A transport's positions index the song grid, the chain and the phrase
table whenever it is active. -/
def TransportValid (t : Transport) : Prop :=
  t.active = true →
    (0 ≤ t.songRow ∧ t.songRow < 16) ∧
    (0 ≤ t.chainRow ∧ t.chainRow < 16) ∧
    (0 ≤ t.phrase ∧ t.phrase < 255) ∧
    (0 ≤ t.rowInPhrase ∧ t.rowInPhrase < 255)

/-- All eight transports are position-valid. -/
def ValidPositions (s : State) : Prop :=
  ∀ u : Track, TransportValid (s.transports u)

/-- Chain tables hold only the empty marker or a phrase id in range (the
data model stores phrase ids 0..254). -/
def WFChains (tab : Tables) : Prop :=
  ∀ (track : Track) (chainID chainRow : Int),
    tab.chains track chainID chainRow = -1 ∨
      (0 ≤ tab.chains track chainID chainRow ∧ tab.chains track chainID chainRow < 255)

theorem findFirstPlayable_some_bounds {tab : Tables} {track : Track} {pid r : Int}
    (h : findFirstPlayableRowInPhraseForTrack tab track pid = some r) :
    0 ≤ pid ∧ pid < 255 ∧ 0 ≤ r ∧ r < 255 := by
  unfold findFirstPlayableRowInPhraseForTrack at h
  by_cases hp : pid < 0 ∨ 255 ≤ pid
  · rw [if_pos hp] at h
    cases h
  · rw [if_neg hp] at h
    rw [Option.map_eq_some'] at h
    obtain ⟨n, hn, rfl⟩ := h
    have hmem := List.mem_of_find?_eq_some hn
    rw [List.mem_range] at hmem
    exact ⟨by omega, by omega, Int.ofNat_nonneg n, by exact_mod_cast hmem⟩

theorem nextPlayable_some_bounds {tab : Tables} {track : Track}
    {phraseNum after i : Int}
    (h : nextPlayableRowInPhrase tab track phraseNum after = some i) :
    0 ≤ i ∧ i < 255 ∧ after < i := by
  unfold nextPlayableRowInPhrase at h
  by_cases hp : 0 ≤ phraseNum ∧ phraseNum < 255
  · rw [if_pos hp] at h
    rw [Option.map_eq_some'] at h
    obtain ⟨n, hn, rfl⟩ := h
    have hmem := List.mem_of_find?_eq_some hn
    rw [List.mem_range] at hmem
    have hpred := List.find?_some hn
    rw [decide_eq_true_eq] at hpred
    exact ⟨Int.ofNat_nonneg n, by exact_mod_cast hmem, hpred.1⟩
  · rw [if_neg hp] at h
    cases h

theorem firstNonEmptyChainSlot_some_bounds {tab : Tables} {track : Track}
    {chainID crow pid : Int}
    (h : firstNonEmptyChainSlot tab track chainID = some (crow, pid)) :
    0 ≤ crow ∧ crow < 16 ∧ pid = tab.chains track chainID crow ∧ pid ≠ -1 := by
  unfold firstNonEmptyChainSlot at h
  rw [Option.map_eq_some'] at h
  obtain ⟨n, hn, hv⟩ := h
  have hmem := List.mem_of_find?_eq_some hn
  rw [List.mem_range] at hmem
  have hpred := List.find?_some hn
  rw [decide_eq_true_eq] at hpred
  obtain ⟨h₁, h₂⟩ := Prod.mk.injEq .. ▸ hv
  refine ⟨?_, ?_, ?_, ?_⟩
  · rw [← h₁]; exact Int.ofNat_nonneg n
  · rw [← h₁]; exact_mod_cast hmem
  · rw [← h₁, ← h₂]
  · rw [← h₂]; exact hpred

theorem findFirstNonEmpty_bounds (tab : Tables) (track : Track) (pid : Int) :
    0 ≤ FindFirstNonEmptyRowInPhraseForTrack tab track pid ∧
    FindFirstNonEmptyRowInPhraseForTrack tab track pid < 255 := by
  unfold FindFirstNonEmptyRowInPhraseForTrack
  cases h : findFirstPlayableRowInPhraseForTrack tab track pid with
  | none => exact ⟨le_refl 0, by norm_num⟩
  | some r =>
    have := findFirstPlayable_some_bounds h
    exact ⟨this.2.2.1, this.2.2.2⟩

theorem searchRows_bounds (songRow : Int) :
    ∀ x ∈ searchRows songRow, 0 ≤ x ∧ x < 16 := by
  intro x hx
  unfold searchRows at hx
  rw [List.mem_map] at hx
  obtain ⟨k, -, rfl⟩ := hx
  constructor
  · exact Int.emod_nonneg _ (by norm_num)
  · exact Int.emod_lt_of_pos _ (by norm_num)

theorem scanChainSlots_preserves (tab : Tables) (track : Track) (chain : Int) :
    ∀ (l : List Int) (t : Transport),
      (scanChainSlots tab track chain t l).1.active = t.active ∧
      (scanChainSlots tab track chain t l).1.queued = t.queued ∧
      (scanChainSlots tab track chain t l).1.queuedRow = t.queuedRow ∧
      (scanChainSlots tab track chain t l).1.songRow = t.songRow ∧
      (scanChainSlots tab track chain t l).1.chain = t.chain ∧
      (scanChainSlots tab track chain t l).1.ticksLeft = t.ticksLeft := by
  intro l
  induction l with
  | nil => intro t; exact ⟨rfl, rfl, rfl, rfl, rfl, rfl⟩
  | cons c rest ih =>
    intro t
    unfold scanChainSlots
    by_cases hc : tab.chains track chain c ≠ -1
    · rw [if_pos hc]
      cases hf : findFirstPlayableRowInPhraseForTrack tab track
        (tab.chains track chain c) with
      | some r => exact ⟨rfl, rfl, rfl, rfl, rfl, rfl⟩
      | none => exact ih { t with chainRow := c, phrase := tab.chains track chain c }
    · rw [if_neg hc]
      exact ih t

theorem scanChainSlots_ok_bounds (tab : Tables) (track : Track) (chain : Int) :
    ∀ (l : List Int) (t : Transport), (∀ i ∈ l, 0 ≤ i ∧ i < 16) →
      (scanChainSlots tab track chain t l).2 = true →
      (0 ≤ (scanChainSlots tab track chain t l).1.chainRow ∧
        (scanChainSlots tab track chain t l).1.chainRow < 16) ∧
      (0 ≤ (scanChainSlots tab track chain t l).1.phrase ∧
        (scanChainSlots tab track chain t l).1.phrase < 255) ∧
      (0 ≤ (scanChainSlots tab track chain t l).1.rowInPhrase ∧
        (scanChainSlots tab track chain t l).1.rowInPhrase < 255) := by
  intro l
  induction l with
  | nil =>
    intro t _ hok
    cases hok
  | cons c rest ih =>
    intro t hl hok
    have hc16 := hl c (List.mem_cons_self c rest)
    unfold scanChainSlots at hok ⊢
    by_cases hc : tab.chains track chain c ≠ -1
    · rw [if_pos hc] at hok ⊢
      cases hf : findFirstPlayableRowInPhraseForTrack tab track
        (tab.chains track chain c) with
      | some r =>
        rw [hf] at hok
        dsimp only at hok ⊢
        have hb := findFirstPlayable_some_bounds hf
        exact ⟨⟨hc16.1, hc16.2⟩, ⟨hb.1, hb.2.1⟩, ⟨hb.2.2.1, hb.2.2.2⟩⟩
      | none =>
        rw [hf] at hok
        dsimp only at hok ⊢
        exact ih _ (fun j hj => hl j (List.mem_cons_of_mem c hj)) hok
    · rw [if_neg hc] at hok ⊢
      exact ih t (fun j hj => hl j (List.mem_cons_of_mem c hj)) hok

theorem scanSongChainSlots_some_bounds (tab : Tables) (track : Track)
    (chainID : Int) :
    ∀ (l : List Int) (crow pid r : Int), (∀ i ∈ l, 0 ≤ i ∧ i < 16) →
      scanSongChainSlots tab track chainID l = some (crow, pid, r) →
      (0 ≤ crow ∧ crow < 16) ∧ (0 ≤ pid ∧ pid < 255) ∧ (0 ≤ r ∧ r < 255) := by
  intro l
  induction l with
  | nil =>
    intro crow pid r _ h
    cases h
  | cons c rest ih =>
    intro crow pid r hl h
    have hc16 := hl c (List.mem_cons_self c rest)
    unfold scanSongChainSlots at h
    by_cases hc : tab.chains track chainID c ≠ -1
    · rw [if_pos hc] at h
      cases hf : findFirstPlayableRowInPhraseForTrack tab track
        (tab.chains track chainID c) with
      | some r₂ =>
        rw [hf] at h
        dsimp only at h
        injection h with h
        obtain ⟨h₁, h₂, h₃⟩ : c = crow ∧ tab.chains track chainID c = pid ∧ r₂ = r := by
          simpa [Prod.ext_iff] using h
        subst h₁
        subst h₂
        subst h₃
        have hb := findFirstPlayable_some_bounds hf
        exact ⟨⟨hc16.1, hc16.2⟩, ⟨hb.1, hb.2.1⟩, ⟨hb.2.2.1, hb.2.2.2⟩⟩
      | none =>
        rw [hf] at h
        dsimp only at h
        exact ih crow pid r (fun j hj => hl j (List.mem_cons_of_mem c hj)) h
    · rw [if_neg hc] at h
      exact ih crow pid r (fun j hj => hl j (List.mem_cons_of_mem c hj)) h

theorem findNextSongSlot_some_bounds (tab : Tables) (track : Track) :
    ∀ (l : List Int) (srow cid crow pid r : Int), (∀ i ∈ l, 0 ≤ i ∧ i < 16) →
      findNextSongSlot tab track l = some (srow, cid, crow, pid, r) →
      (0 ≤ srow ∧ srow < 16) ∧ (0 ≤ crow ∧ crow < 16) ∧
      (0 ≤ pid ∧ pid < 255) ∧ (0 ≤ r ∧ r < 255) := by
  intro l
  induction l with
  | nil =>
    intro srow cid crow pid r _ h
    cases h
  | cons x rest ih =>
    intro srow cid crow pid r hl h
    have hx16 := hl x (List.mem_cons_self x rest)
    unfold findNextSongSlot at h
    by_cases hc : tab.songData track x ≠ -1
    · rw [if_pos hc] at h
      cases hs : scanSongChainSlots tab track (tab.songData track x)
        (intRange 0 16) with
      | some v =>
        obtain ⟨crow₂, pid₂, r₂⟩ := v
        rw [hs] at h
        dsimp only at h
        injection h with h
        obtain ⟨h₁, h₂, h₃, h₄, h₅⟩ : x = srow ∧ tab.songData track x = cid ∧
            crow₂ = crow ∧ pid₂ = pid ∧ r₂ = r := by
          simpa [Prod.ext_iff] using h
        rw [← h₁, ← h₃, ← h₄, ← h₅]
        have hb := scanSongChainSlots_some_bounds tab track (tab.songData track x)
          (intRange 0 16) crow₂ pid₂ r₂
          (fun j hj => by rw [mem_intRange] at hj; omega) hs
        exact ⟨⟨hx16.1, hx16.2⟩, hb.1, hb.2.1, hb.2.2⟩
      | none =>
        rw [hs] at h
        dsimp only at h
        exact ih srow cid crow pid r (fun j hj => hl j (List.mem_cons_of_mem x hj)) h
    · rw [if_neg hc] at h
      exact ih srow cid crow pid r (fun j hj => hl j (List.mem_cons_of_mem x hj)) h

theorem decTick_fields (t : Transport) :
    (decTick t).active = t.active ∧ (decTick t).queued = t.queued ∧
    (decTick t).queuedRow = t.queuedRow ∧ (decTick t).songRow = t.songRow ∧
    (decTick t).chain = t.chain ∧ (decTick t).chainRow = t.chainRow ∧
    (decTick t).phrase = t.phrase ∧ (decTick t).rowInPhrase = t.rowInPhrase := by
  unfold decTick
  split <;> exact ⟨rfl, rfl, rfl, rfl, rfl, rfl, rfl, rfl⟩

theorem loadAndEmit_fst (tab : Tables) (track : Track) (t : Transport) (b : Bool) :
    (loadAndEmit tab track t b).1 = LoadTicksLeftForTrack tab track t := by
  unfold loadAndEmit
  dsimp only
  split <;> rfl

theorem advance_result_valid (tab : Tables) (track : Track) (t : Transport)
    (hb : (0 ≤ t.songRow ∧ t.songRow < 16) ∧ (0 ≤ t.chainRow ∧ t.chainRow < 16) ∧
          (0 ≤ t.phrase ∧ t.phrase < 255) ∧ (0 ≤ t.rowInPhrase ∧ t.rowInPhrase < 255))
    (hs : (advanceToNextPlayableRowForTrack tab track t).2.1 = true) :
    (0 ≤ (advanceToNextPlayableRowForTrack tab track t).1.songRow ∧
      (advanceToNextPlayableRowForTrack tab track t).1.songRow < 16) ∧
    (0 ≤ (advanceToNextPlayableRowForTrack tab track t).1.chainRow ∧
      (advanceToNextPlayableRowForTrack tab track t).1.chainRow < 16) ∧
    (0 ≤ (advanceToNextPlayableRowForTrack tab track t).1.phrase ∧
      (advanceToNextPlayableRowForTrack tab track t).1.phrase < 255) ∧
    (0 ≤ (advanceToNextPlayableRowForTrack tab track t).1.rowInPhrase ∧
      (advanceToNextPlayableRowForTrack tab track t).1.rowInPhrase < 255) := by
  unfold advanceToNextPlayableRowForTrack at hs ⊢
  cases hnp : nextPlayableRowInPhrase tab track t.phrase t.rowInPhrase with
  | some i =>
    dsimp only
    have hbnds := nextPlayable_some_bounds hnp
    exact ⟨hb.1, hb.2.1, hb.2.2.1, hbnds.1, hbnds.2.1⟩
  | none =>
    rw [hnp] at hs
    dsimp only at hs ⊢
    by_cases hok :
        (scanChainSlots tab track t.chain t (intRange (t.chainRow + 1) 16)).2 = true
    · rw [if_pos hok] at hs ⊢
      have hpres := scanChainSlots_preserves tab track t.chain
        (intRange (t.chainRow + 1) 16) t
      have hbnds := scanChainSlots_ok_bounds tab track t.chain
        (intRange (t.chainRow + 1) 16) t
        (fun j hj => by rw [mem_intRange] at hj; omega) hok
      refine ⟨?_, hbnds.1, hbnds.2.1, hbnds.2.2⟩
      rw [hpres.2.2.2.1]
      exact hb.1
    · rw [if_neg hok] at hs ⊢
      cases hfs : findNextSongSlot tab track
          (searchRows (scanChainSlots tab track t.chain t
            (intRange (t.chainRow + 1) 16)).1.songRow) with
      | some v =>
        obtain ⟨srow, cid, crow, pid, r⟩ := v
        dsimp only at hs ⊢
        have hbnds := findNextSongSlot_some_bounds tab track _ srow cid crow pid r
          (searchRows_bounds _) hfs
        exact ⟨hbnds.1, hbnds.2.1, hbnds.2.2.1, hbnds.2.2.2⟩
      | none =>
        rw [hfs] at hs
        dsimp only at hs
        cases hs

theorem trackTickStep_valid (tab : Tables) (track : Track) (t : Transport)
    (hv : TransportValid t) : TransportValid (trackTickStep tab track t).1 := by
  unfold trackTickStep
  by_cases ha : ¬ t.active = true
  · rw [if_pos ha]
    exact hv
  rw [if_neg ha]
  rw [not_not] at ha
  have hb := hv ha
  have hdf := decTick_fields t
  dsimp only
  by_cases htl : (decTick t).ticksLeft > 0
  · rw [if_pos htl]
    intro h₂
    rw [hdf.2.2.2.1, hdf.2.2.2.2.2.1, hdf.2.2.2.2.2.2.1, hdf.2.2.2.2.2.2.2]
    exact hb
  rw [if_neg htl]
  by_cases hsucc :
      ¬ (advanceToNextPlayableRowForTrack tab track (decTick t)).2.1 = true
  · rw [if_pos hsucc]
    intro h₂
    cases h₂
  rw [if_neg hsucc]
  rw [not_not] at hsucc
  have hdb : (0 ≤ (decTick t).songRow ∧ (decTick t).songRow < 16) ∧
      (0 ≤ (decTick t).chainRow ∧ (decTick t).chainRow < 16) ∧
      (0 ≤ (decTick t).phrase ∧ (decTick t).phrase < 255) ∧
      (0 ≤ (decTick t).rowInPhrase ∧ (decTick t).rowInPhrase < 255) := by
    rw [hdf.2.2.2.1, hdf.2.2.2.2.2.1, hdf.2.2.2.2.2.2.1, hdf.2.2.2.2.2.2.2]
    exact hb
  have hav := advance_result_valid tab track (decTick t) hdb hsucc
  by_cases hbound :
      (advanceToNextPlayableRowForTrack tab track (decTick t)).1.songRow ≠
        (decTick t).songRow ∨
      (advanceToNextPlayableRowForTrack tab track (decTick t)).2.2 = true
  · rw [if_pos hbound]
    by_cases hq : (advanceToNextPlayableRowForTrack tab track (decTick t)).1.queued = -1
    · rw [if_pos hq]
      split
      · intro h₂
        cases h₂
      · intro h₂
        cases h₂
    · rw [if_neg hq]
      rw [loadAndEmit_fst]
      intro h₂
      exact hav
  · rw [if_neg hbound]
    rw [loadAndEmit_fst]
    intro h₂
    exact hav

theorem queuedStartStep_valid (tab : Tables) (track : Track) (t : Transport)
    (hwf : WFChains tab) (hv : TransportValid t) :
    TransportValid (queuedStartStep tab track t).1 := by
  unfold queuedStartStep
  by_cases hq : t.queued = 1 ∧ t.active = false
  · rw [if_pos hq]
    dsimp only
    by_cases hr : t.queuedRow < 0 ∨ 16 ≤ t.queuedRow
    · rw [if_pos hr]
      intro h₂
      have h₃ : t.active = true := h₂
      rw [hq.2] at h₃
      cases h₃
    rw [if_neg hr]
    by_cases hcid : tab.songData track t.queuedRow = -1
    · rw [if_pos hcid]
      intro h₂
      have h₃ : t.active = true := h₂
      rw [hq.2] at h₃
      cases h₃
    rw [if_neg hcid]
    cases hslot : firstNonEmptyChainSlot tab track (tab.songData track t.queuedRow) with
    | none =>
      intro h₂
      have h₃ : t.active = true := h₂
      rw [hq.2] at h₃
      cases h₃
    | some v =>
      obtain ⟨fcr, fpid⟩ := v
      dsimp only [LoadTicksLeftForTrack]
      intro h₂
      dsimp only
      push_neg at hr
      have hsb := firstNonEmptyChainSlot_some_bounds hslot
      have hpid : 0 ≤ fpid ∧ fpid < 255 := by
        rcases hwf track (tab.songData track t.queuedRow) fcr with hempty | hok
        · rw [hsb.2.2.1] at hsb
          exact absurd hempty (by rw [← hsb.2.2.1] at hempty ⊢; exact fun hcon => hsb.2.2.2 (hsb.2.2.1 ▸ hempty))
        · rw [hsb.2.2.1]
          exact hok
      have hfb := findFirstNonEmpty_bounds tab track fpid
      exact ⟨⟨by omega, by omega⟩, ⟨hsb.1, hsb.2.1⟩, hpid, hfb⟩
  · rw [if_neg hq]
    exact hv

theorem validPositions_setTransport {s : State} {track : Track} {tNew : Transport}
    (h : TransportValid tNew) (hv : ValidPositions s) :
    ValidPositions (setTransport s track tNew) := by
  intro u
  by_cases hu : u = track
  · subst hu
    show TransportValid (Function.update s.transports u tNew u)
    rw [Function.update_same]
    exact h
  · show TransportValid (Function.update s.transports track tNew u)
    rw [Function.update_noteq hu]
    exact hv u

theorem startTrackImmediate_transports (tab : Tables) (s : State) (track : Track)
    (songRow chainID firstChainRow firstPhraseID : Int) (u : Track) :
    (startTrackImmediate tab s track songRow chainID firstChainRow
        firstPhraseID).transports u =
      (if u = track then
        LoadTicksLeftForTrack tab track
          { s.transports track with
              active := true
              queued := 0
              songRow := songRow
              chain := chainID
              chainRow := firstChainRow
              phrase := firstPhraseID
              rowInPhrase := FindFirstNonEmptyRowInPhraseForTrack tab track firstPhraseID }
      else s.transports u) := by
  unfold startTrackImmediate
  by_cases hp : s.isPlaying = true <;> by_cases hu : u = track <;>
    simp [hp, hu, setTransport, Function.update_same, Function.update_noteq]

theorem validPositions_perTrackPhase (tab : Tables) (s : State)
    (hv : ValidPositions s) : ValidPositions (perTrackPhase tab s).1 := by
  intro u
  rw [perTrackPhase_transports]
  exact trackTickStep_valid tab u _ (hv u)

theorem validPositions_queuedStartPhase (tab : Tables) (s : State)
    (hwf : WFChains tab) (hv : ValidPositions s) :
    ValidPositions (queuedStartPhase tab s) := by
  intro u
  rw [queuedStartPhase_transports]
  exact queuedStartStep_valid tab u _ hwf (hv u)

theorem validPositions_stopCheckPhase (s : State) (hv : ValidPositions s) :
    ValidPositions (stopCheckPhase s) := by
  intro u
  rw [congrFun (stopCheckPhase_transports s) u]
  exact hv u

theorem advanceChainMode_transports (tab : Tables) (s : State) :
    (advanceChainMode tab s).transports = s.transports := by
  unfold advanceChainMode
  split
  · rfl
  · split
    · rfl
    · split
      · rfl
      · rfl

theorem advancePhraseMode_transports (tab : Tables) (s : State) :
    (advancePhraseMode tab s).transports = s.transports := by
  unfold advancePhraseMode
  split
  · rfl
  · rfl

theorem validPositions_toggleSongView (tab : Tables) (s : State) (track : Track)
    (hwf : WFChains tab) (hv : ValidPositions s) :
    ValidPositions (toggleSongView tab s track) := by
  simp only [toggleSongView]
  by_cases h₀ : s.currentRow < 0 ∨ 16 ≤ s.currentRow
  · rw [if_pos h₀]
    exact hv
  rw [if_neg h₀]
  by_cases hict : (s.isPlaying && decide (s.playbackMode = ViewMode.songView) &&
      (s.transports track).active) = true
  · rw [if_pos hict]
    by_cases hjump : (s.transports track).songRow ≠ s.currentRow
    · rw [if_pos hjump]
      by_cases hcid : tab.songData track s.currentRow = -1
      · rw [if_pos hcid]
        exact hv
      rw [if_neg hcid]
      by_cases hvalid : ¬ chainHasValidPhrase tab track (tab.songData track s.currentRow) = true
      · rw [if_pos hvalid]
        exact hv
      · rw [if_neg hvalid]
        exact validPositions_setTransport (fun h => hv track h) hv
    · rw [if_neg hjump]
      by_cases hother : (s.isPlaying && decide (s.playbackMode = ViewMode.songView) &&
          ((List.finRange 8).any fun u =>
            decide (u ≠ track) && (s.transports u).active)) = true
      · rw [if_pos hother]
        exact validPositions_setTransport (fun h => hv track h) hv
      · rw [if_neg hother]
        intro u
        rw [show ∀ X : State, (fullStopEffects { X with isPlaying := false }).transports u
            = X.transports u from fun X => congrFun (fullStopEffects_fields _).1 u]
        refine validPositions_setTransport ?_ hv u
        intro hcon
        cases hcon
  · rw [if_neg hict]
    by_cases hcid : tab.songData track s.currentRow = -1
    · rw [if_pos hcid]
      exact hv
    rw [if_neg hcid]
    cases hslot : firstNonEmptyChainSlot tab track (tab.songData track s.currentRow) with
    | none => exact hv
    | some v =>
      obtain ⟨firstChainRow, firstPhraseID⟩ := v
      dsimp only
      by_cases hother : (s.isPlaying && decide (s.playbackMode = ViewMode.songView) &&
          ((List.finRange 8).any fun u =>
            decide (u ≠ track) && (s.transports u).active)) = true
      · rw [if_pos hother]
        exact validPositions_setTransport (fun h => hv track h) hv
      · rw [if_neg hother]
        intro u
        rw [startTrackImmediate_transports]
        by_cases hu : u = track
        · rw [if_pos hu]
          intro h₂
          dsimp only [LoadTicksLeftForTrack]
          push_neg at h₀
          have hsb := firstNonEmptyChainSlot_some_bounds hslot
          have hpid : 0 ≤ firstPhraseID ∧ firstPhraseID < 255 := by
            rcases hwf track (tab.songData track s.currentRow) firstChainRow with hempty | hok
            · exact absurd hempty (by rw [← hsb.2.2.1]; exact hsb.2.2.2)
            · rw [hsb.2.2.1]
              exact hok
          have hfb := findFirstNonEmpty_bounds tab track firstPhraseID
          exact ⟨⟨by omega, by omega⟩, ⟨hsb.1, hsb.2.1⟩, hpid, hfb⟩
        · rw [if_neg hu]
          exact hv u

theorem validPositions_resetAll (s : State) :
    ValidPositions (resetAllSongPlayback s) := by
  intro u h
  rw [resetAllSongPlayback_active s u] at h
  cases h

theorem validPositions_advance (tab : Tables) (s : State)
    (hwf : WFChains tab) (hv : ValidPositions s) :
    ValidPositions (AdvancePlayback tab s) := by
  unfold AdvancePlayback
  dsimp only
  by_cases hm : s.playbackMode = .songView
  · rw [if_pos hm]
    refine validPositions_stopCheckPhase _ ?_
    unfold songTickMid
    dsimp only
    by_cases hflag :
        (perTrackPhase tab { s with tickCount := s.tickCount + 1 }).2 = true
    · rw [if_pos hflag]
      exact validPositions_queuedStartPhase tab _ hwf
        (validPositions_perTrackPhase tab _ hv)
    · rw [if_neg hflag]
      exact validPositions_perTrackPhase tab _ hv
  · rw [if_neg hm]
    by_cases hc : s.playbackMode = .chainView
    · rw [if_pos hc]
      intro u
      rw [congrFun (advanceChainMode_transports tab _) u]
      exact hv u
    · rw [if_neg hc]
      intro u
      rw [congrFun (advancePhraseMode_transports tab _) u]
      exact hv u

/-- C6 — position-validity invariant: with well-formed chain tables, every
operation (the toggle with its immediate/queued start, stop and jump
branches, cancel, and the scheduler tick with queued-start execution and
per-track advancement) keeps every active transport's `songRow` in [0,16),
`chainRow` in [0,16), `phrase` in [0,255) and `rowInPhrase` in [0,255). -/
theorem active_positions_valid (tab : Tables) (s : State)
    (hwf : WFChains tab) (hv : ValidPositions s) :
    ValidPositions (ToggleSingleTrackPlayback tab s) ∧
    ValidPositions (CancelQueuedAction s) ∧
    ValidPositions (AdvancePlayback tab s) := by
  refine ⟨?_, ?_, validPositions_advance tab s hwf hv⟩
  · unfold ToggleSingleTrackPlayback
    by_cases hview : s.viewMode ≠ .songView
    · rw [if_pos hview]
      exact hv
    rw [if_neg hview]
    cases htr : trackOf? s.currentCol with
    | none => exact hv
    | some track =>
      dsimp only
      by_cases hpre : s.isPlaying ∧
          (s.playbackMode = .chainView ∨ s.playbackMode = .phraseView)
      · rw [if_pos hpre]
        exact validPositions_toggleSongView tab _ track hwf (validPositions_resetAll _)
      · rw [if_neg hpre]
        exact validPositions_toggleSongView tab s track hwf hv
  · unfold CancelQueuedAction
    by_cases hview : s.viewMode ≠ .songView
    · rw [if_pos hview]
      exact hv
    rw [if_neg hview]
    cases htr : trackOf? s.currentCol with
    | none => exact hv
    | some track =>
      dsimp only
      by_cases hq : (s.transports track).queued ≠ 0
      · rw [if_pos hq]
        exact validPositions_setTransport (fun h => hv track h) hv
      · rw [if_neg hq]
        exact hv

set_option maxRecDepth 8000 in
/-- Witness for `active_positions_valid`: the one-chain song `tabW` is
well-formed and the scheduler tick keeps `witnessState` position-valid. -/
theorem active_positions_valid_witness :
    WFChains tabW ∧ ValidPositions witnessState ∧
    ValidPositions (AdvancePlayback tabW witnessState) := by
  have hwf : WFChains tabW := by
    intro track cid crow
    show (if track = 0 ∧ cid = 0 ∧ crow = 0 then (0 : Int) else -1) = -1 ∨
      (0 ≤ (if track = 0 ∧ cid = 0 ∧ crow = 0 then (0 : Int) else -1) ∧
        (if track = 0 ∧ cid = 0 ∧ crow = 0 then (0 : Int) else -1) < 255)
    split
    · right
      norm_num
    · left
      rfl
  have hv : ValidPositions witnessState := by
    unfold ValidPositions TransportValid
    decide
  exact ⟨hwf, hv, (active_positions_valid tabW witnessState hwf hv).2.2⟩

/-! ### Queued stop/jump conversion and queued-start execution (C2, C3) -/

theorem advance_preserves_control (tab : Tables) (track : Track) (t : Transport) :
    (advanceToNextPlayableRowForTrack tab track t).1.active = t.active ∧
    (advanceToNextPlayableRowForTrack tab track t).1.queued = t.queued ∧
    (advanceToNextPlayableRowForTrack tab track t).1.queuedRow = t.queuedRow ∧
    (advanceToNextPlayableRowForTrack tab track t).1.ticksLeft = t.ticksLeft := by
  unfold advanceToNextPlayableRowForTrack
  cases hnp : nextPlayableRowInPhrase tab track t.phrase t.rowInPhrase with
  | some i => exact ⟨rfl, rfl, rfl, rfl⟩
  | none =>
    dsimp only
    have hpres := scanChainSlots_preserves tab track t.chain
      (intRange (t.chainRow + 1) 16) t
    by_cases hok :
        (scanChainSlots tab track t.chain t (intRange (t.chainRow + 1) 16)).2 = true
    · rw [if_pos hok]
      exact ⟨hpres.1, hpres.2.1, hpres.2.2.1, hpres.2.2.2.2.2⟩
    · rw [if_neg hok]
      cases hfs : findNextSongSlot tab track
          (searchRows (scanChainSlots tab track t.chain t
            (intRange (t.chainRow + 1) 16)).1.songRow) with
      | some v =>
        obtain ⟨srow, cid, crow, pid, r⟩ := v
        dsimp only
        exact ⟨hpres.1, hpres.2.1, hpres.2.2.1, hpres.2.2.2.2.2⟩
      | none =>
        exact ⟨hpres.1, hpres.2.1, hpres.2.2.1, hpres.2.2.2.2.2⟩


/-- At a tick where an active track's budget expires and the resolver
reports a song-level cell boundary, a queued stop whose jump target is
in range and distinct from the resolved song row converts into a queued
start, skipping the load/emit of the resolved row (playback.go:461-470). -/
theorem trackTickStep_jump_conversion (tab : Tables) (A : Track) (t : Transport)
    {t₁ : Transport} {looped : Bool}
    (hactive : t.active = true) (htl : t.ticksLeft = 1) (hq : t.queued = -1)
    (hadv : advanceToNextPlayableRowForTrack tab A (decTick t) = (t₁, true, looped))
    (hbound : t₁.songRow ≠ t.songRow ∨ looped = true)
    (hr0 : 0 ≤ t.queuedRow) (hr16 : t.queuedRow < 16)
    (hrne : t.queuedRow ≠ t₁.songRow) :
    trackTickStep tab A t = ({ t₁ with active := false, queued := 1 }, true, []) ∧
    t₁.queuedRow = t.queuedRow := by
  have hctrl := advance_preserves_control tab A (decTick t)
  have hdf := decTick_fields t
  have hq₁ : t₁.queued = -1 := by
    have h := hctrl.2.1
    rw [hadv] at h
    dsimp only at h
    rw [hdf.2.1, hq] at h
    exact h
  have hqr₁ : t₁.queuedRow = t.queuedRow := by
    have h := hctrl.2.2.1
    rw [hadv] at h
    dsimp only at h
    rw [hdf.2.2.1] at h
    exact h
  refine ⟨?_, hqr₁⟩
  unfold trackTickStep
  rw [if_neg (by simp [hactive])]
  dsimp only
  have hdtl : (decTick t).ticksLeft = 0 := by
    unfold decTick
    rw [if_pos (by omega)]
    dsimp only
    omega
  rw [if_neg (by rw [hdtl]; omega)]
  rw [hadv]
  dsimp only
  rw [if_neg (by simp)]
  rw [hdf.2.2.2.1]
  rw [if_pos hbound]
  rw [if_pos hq₁]
  rw [if_pos (by rw [hqr₁]; exact ⟨hr0, hr16, hrne⟩)]

/-- The queued-start pass activates a validated queued start at its queued
row, seeded at the chain's first phrase and first playable row
(playback.go:536-551). -/
theorem queuedStartStep_activates (tab : Tables) (A : Track) (t : Transport)
    (hq : t.queued = 1) (ha : t.active = false)
    (hr0 : 0 ≤ t.queuedRow) (hr16 : t.queuedRow < 16)
    (hcid : tab.songData A t.queuedRow ≠ -1)
    {fcr fpid : Int}
    (hslot : firstNonEmptyChainSlot tab A (tab.songData A t.queuedRow) =
      some (fcr, fpid)) :
    queuedStartStep tab A t =
      (LoadTicksLeftForTrack tab A
        { t with
            active := true
            queued := 0
            songRow := t.queuedRow
            chain := tab.songData A t.queuedRow
            chainRow := fcr
            phrase := fpid
            rowInPhrase := FindFirstNonEmptyRowInPhraseForTrack tab A fpid },
       [(fpid, FindFirstNonEmptyRowInPhraseForTrack tab A fpid, A)]) := by
  unfold queuedStartStep
  rw [if_pos ⟨hq, ha⟩]
  dsimp only
  rw [if_neg (by omega)]
  rw [if_neg hcid]
  rw [hslot]

theorem advance_transports_of_boundary (tab : Tables) (s : State) (A : Track)
    (hm : s.playbackMode = .songView)
    (hflag : ∃ u : Track, (trackTickStep tab u (s.transports u)).2.1 = true) :
    (AdvancePlayback tab s).transports A =
      (queuedStartStep tab A (trackTickStep tab A (s.transports A)).1).1 := by
  rw [advance_song_eq tab s hm]
  rw [congrFun (stopCheckPhase_transports _) A]
  unfold songTickMid
  dsimp only
  have hfl : (perTrackPhase tab { s with tickCount := s.tickCount + 1 }).2 = true := by
    rw [perTrackPhase_flag]
    refine List.any_eq_true.mpr ?_
    obtain ⟨u, hu⟩ := hflag
    exact ⟨u, List.mem_finRange u, hu⟩
  rw [if_pos hfl]
  rw [queuedStartPhase_transports]
  rw [perTrackPhase_transports]

theorem loadAndEmit_flag (tab : Tables) (track : Track) (t : Transport) (b : Bool) :
    (loadAndEmit tab track t b).2.1 = b := by
  unfold loadAndEmit
  dsimp only
  split <;> rfl

/-- A queued-start iteration skips a transport that is not an inactive
queued start (playback.go:500). -/
theorem queuedStartStep_skip (tab : Tables) (A : Track) (t : Transport)
    (h : ¬ (t.queued = 1 ∧ t.active = false)) :
    queuedStartStep tab A t = (t, []) := by
  unfold queuedStartStep
  rw [if_neg h]

/-- A mid-cell tick only decrements the active track's budget
(playback.go:421-429): no boundary, no emission, every other transport
field untouched. -/
theorem trackTickStep_midcell (tab : Tables) (A : Track) (t : Transport)
    (ha : t.active = true) (htl : t.ticksLeft > 1) :
    trackTickStep tab A t = ({ t with ticksLeft := t.ticksLeft - 1 }, false, []) := by
  unfold trackTickStep
  rw [if_neg (by simp [ha])]
  dsimp only
  have hdt : decTick t = { t with ticksLeft := t.ticksLeft - 1 } := by
    unfold decTick
    rw [if_pos (by omega)]
  rw [hdt]
  rw [if_pos (show ({ t with ticksLeft := t.ticksLeft - 1 } : Transport).ticksLeft > 0
    by dsimp only; omega)]

/-- A cell boundary that resolves within the phrase or chain (song row
unchanged, no chain loop) loads the new budget and emits without reporting
a song-level boundary and without evaluating the queued action
(playback.go:479-492). -/
theorem trackTickStep_within_cell (tab : Tables) (A : Track) (t : Transport)
    {t₁ : Transport} {looped : Bool}
    (ha : t.active = true) (htl : t.ticksLeft = 1)
    (hadv : advanceToNextPlayableRowForTrack tab A (decTick t) = (t₁, true, looped))
    (hrow : t₁.songRow = t.songRow) (hlp : looped = false) :
    (trackTickStep tab A t).1 = LoadTicksLeftForTrack tab A t₁ ∧
    (trackTickStep tab A t).2.1 = false := by
  unfold trackTickStep
  rw [if_neg (by simp [ha])]
  dsimp only
  have hdtl : (decTick t).ticksLeft = 0 := by
    unfold decTick
    rw [if_pos (by omega)]
    dsimp only
    omega
  rw [if_neg (by rw [hdtl]; omega)]
  rw [hadv]
  dsimp only
  rw [if_neg (by simp)]
  rw [(decTick_fields t).2.2.2.1]
  rw [if_neg (show ¬ (t₁.songRow ≠ t.songRow ∨ looped = true) by rw [hrow, hlp]; simp)]
  exact ⟨loadAndEmit_fst tab A t₁ false, loadAndEmit_flag tab A t₁ false⟩

theorem advance_transports_of_no_boundary (tab : Tables) (s : State) (A : Track)
    (hm : s.playbackMode = .songView)
    (hnb : ∀ u : Track, (trackTickStep tab u (s.transports u)).2.1 = false) :
    (AdvancePlayback tab s).transports A = (trackTickStep tab A (s.transports A)).1 := by
  rw [advance_song_eq tab s hm]
  rw [congrFun (stopCheckPhase_transports _) A]
  unfold songTickMid
  dsimp only
  have hfl : (perTrackPhase tab { s with tickCount := s.tickCount + 1 }).2 = false := by
    rw [perTrackPhase_flag]
    refine List.any_eq_false.mpr ?_
    intro u _
    rw [hnb u]
    simp
  rw [hfl]
  rw [if_neg (by simp)]
  rw [perTrackPhase_transports]

/-- C3 — multi-track queued start: (1) starting an inactive track while
another track is active does not activate it — it only sets
queuedAction = start with the requested song row; (2) a tick on which no
transport reaches a song-level cell boundary leaves the queued (inactive)
track completely untouched; and (3) on a tick where some transport reaches
a boundary, the queued track activates at its queued row with its chain,
first phrase slot and first playable row loaded. -/
theorem queued_start_waits_for_boundary (tab : Tables) :
    (∀ (s : State) (A : Track) (fcr fpid : Int),
      s.viewMode = .songView → s.currentCol = (A.val : Int) →
      s.playbackMode = .songView → s.isPlaying = true →
      0 ≤ s.currentRow → s.currentRow < 16 →
      (s.transports A).active = false →
      (∃ B : Track, B ≠ A ∧ (s.transports B).active = true) →
      tab.songData A s.currentRow ≠ -1 →
      firstNonEmptyChainSlot tab A (tab.songData A s.currentRow) = some (fcr, fpid) →
      ToggleSingleTrackPlayback tab s =
        setTransport s A { s.transports A with queued := 1, queuedRow := s.currentRow }) ∧
    (∀ (s : State) (A : Track),
      s.playbackMode = .songView → (s.transports A).active = false →
      (∀ u : Track, (trackTickStep tab u (s.transports u)).2.1 = false) →
      (AdvancePlayback tab s).transports A = s.transports A) ∧
    (∀ (s : State) (A : Track) (fcr fpid : Int),
      s.playbackMode = .songView →
      (s.transports A).active = false → (s.transports A).queued = 1 →
      0 ≤ (s.transports A).queuedRow → (s.transports A).queuedRow < 16 →
      tab.songData A (s.transports A).queuedRow ≠ -1 →
      firstNonEmptyChainSlot tab A (tab.songData A (s.transports A).queuedRow) =
        some (fcr, fpid) →
      (∃ u : Track, (trackTickStep tab u (s.transports u)).2.1 = true) →
      (AdvancePlayback tab s).transports A =
        LoadTicksLeftForTrack tab A
          { s.transports A with
              active := true
              queued := 0
              songRow := (s.transports A).queuedRow
              chain := tab.songData A (s.transports A).queuedRow
              chainRow := fcr
              phrase := fpid
              rowInPhrase := FindFirstNonEmptyRowInPhraseForTrack tab A fpid }) := by
  refine ⟨?_, ?_, ?_⟩
  · intro s A fcr fpid hv hc hm hp hr0 hr16 hA hB hcell hslot
    rw [toggle_eq_toggleSongView tab s A hv hc (Or.inl hm)]
    simp only [toggleSongView]
    rw [if_neg (by omega)]
    rw [if_neg (show ¬ (s.isPlaying && decide (s.playbackMode = ViewMode.songView) &&
      (s.transports A).active) = true by simp [hA])]
    rw [if_neg (by simp [hcell])]
    rw [hslot]
    dsimp only
    rw [if_pos ?_]
    obtain ⟨B, hBA, hBact⟩ := hB
    rw [hp, hm]
    simp only [decide_True, Bool.true_and]
    refine List.any_eq_true.mpr ⟨B, List.mem_finRange B, ?_⟩
    simp [hBA, hBact]
  · intro s A hm hA hnb
    rw [advance_transports_of_no_boundary tab s A hm hnb]
    rw [trackTickStep_inactive tab A hA]
  · intro s A fcr fpid hm hA hq hr0 hr16 hcell hslot hflag
    rw [advance_transports_of_boundary tab s A hm hflag]
    rw [trackTickStep_inactive tab A hA]
    exact congrArg Prod.fst
      (queuedStartStep_activates tab A (s.transports A) hq hA hr0 hr16 hcell hslot)

/-- C2 — jump semantics: (1) with the track playing and the cursor on a
different non-empty cell whose chain has a phrase slot, the toggle queues
a stop with the jump target (queuedAction = stop, queuedRow = target);
(2) at the track's next song-level cell boundary the scheduler converts the
queued stop into a queued start at the target — deactivating for the rest
of the tick and emitting nothing for this track's resolved row; (3) the
queued-start pass of the same scheduler call then activates the track at
the jump target; (4) until that boundary the track keeps playing at its
current song row with the jump pending: a mid-cell tick only decrements
the budget, leaving the track active at the same song row with
queued = -1 and the target untouched; (5) likewise a cell boundary that
resolves within the phrase or chain — song row unchanged and no chain
loop — merely loads the next row's budget, leaving the track active at
the same song row with the queued jump and its target intact. -/
theorem jump_converts_to_queued_start (tab : Tables) :
    (∀ (s : State) (A : Track),
      s.viewMode = .songView → s.currentCol = (A.val : Int) →
      s.playbackMode = .songView → s.isPlaying = true →
      0 ≤ s.currentRow → s.currentRow < 16 →
      (s.transports A).active = true →
      (s.transports A).songRow ≠ s.currentRow →
      tab.songData A s.currentRow ≠ -1 →
      chainHasValidPhrase tab A (tab.songData A s.currentRow) = true →
      ToggleSingleTrackPlayback tab s =
        setTransport s A { s.transports A with queued := -1, queuedRow := s.currentRow }) ∧
    (∀ (A : Track) (t t₁ : Transport) (looped : Bool),
      t.active = true → t.ticksLeft = 1 → t.queued = -1 →
      advanceToNextPlayableRowForTrack tab A (decTick t) = (t₁, true, looped) →
      (t₁.songRow ≠ t.songRow ∨ looped = true) →
      0 ≤ t.queuedRow → t.queuedRow < 16 → t.queuedRow ≠ t₁.songRow →
      trackTickStep tab A t = ({ t₁ with active := false, queued := 1 }, true, []) ∧
      t₁.queuedRow = t.queuedRow) ∧
    (∀ (s : State) (A : Track) (t₁ : Transport) (looped : Bool) (fcr fpid : Int),
      s.playbackMode = .songView →
      (s.transports A).active = true → (s.transports A).ticksLeft = 1 →
      (s.transports A).queued = -1 →
      advanceToNextPlayableRowForTrack tab A (decTick (s.transports A)) =
        (t₁, true, looped) →
      (t₁.songRow ≠ (s.transports A).songRow ∨ looped = true) →
      0 ≤ (s.transports A).queuedRow → (s.transports A).queuedRow < 16 →
      (s.transports A).queuedRow ≠ t₁.songRow →
      tab.songData A (s.transports A).queuedRow ≠ -1 →
      firstNonEmptyChainSlot tab A (tab.songData A (s.transports A).queuedRow) =
        some (fcr, fpid) →
      (AdvancePlayback tab s).transports A =
        LoadTicksLeftForTrack tab A
          { t₁ with
              active := true
              queued := 0
              songRow := (s.transports A).queuedRow
              chain := tab.songData A (s.transports A).queuedRow
              chainRow := fcr
              phrase := fpid
              rowInPhrase := FindFirstNonEmptyRowInPhraseForTrack tab A fpid }) ∧
    (∀ (s : State) (A : Track),
      s.playbackMode = .songView →
      (s.transports A).active = true → (s.transports A).queued = -1 →
      (s.transports A).ticksLeft > 1 →
      (AdvancePlayback tab s).transports A =
        { s.transports A with ticksLeft := (s.transports A).ticksLeft - 1 } ∧
      ((AdvancePlayback tab s).transports A).active = true ∧
      ((AdvancePlayback tab s).transports A).songRow = (s.transports A).songRow ∧
      ((AdvancePlayback tab s).transports A).queued = -1 ∧
      ((AdvancePlayback tab s).transports A).queuedRow = (s.transports A).queuedRow) ∧
    (∀ (s : State) (A : Track) (t₁ : Transport) (looped : Bool),
      s.playbackMode = .songView →
      (s.transports A).active = true → (s.transports A).queued = -1 →
      (s.transports A).ticksLeft = 1 →
      advanceToNextPlayableRowForTrack tab A (decTick (s.transports A)) =
        (t₁, true, looped) →
      t₁.songRow = (s.transports A).songRow → looped = false →
      (AdvancePlayback tab s).transports A = LoadTicksLeftForTrack tab A t₁ ∧
      ((AdvancePlayback tab s).transports A).active = true ∧
      ((AdvancePlayback tab s).transports A).songRow = (s.transports A).songRow ∧
      ((AdvancePlayback tab s).transports A).queued = -1 ∧
      ((AdvancePlayback tab s).transports A).queuedRow = (s.transports A).queuedRow) := by
  refine ⟨?_, ?_, ?_, ?_, ?_⟩
  · intro s A hv hc hm hp hr0 hr16 hA hne hcell hvalid
    rw [toggle_eq_toggleSongView tab s A hv hc (Or.inl hm)]
    simp only [toggleSongView]
    rw [if_neg (by omega)]
    rw [if_pos (show (s.isPlaying && decide (s.playbackMode = ViewMode.songView) &&
      (s.transports A).active) = true by simp [hp, hm, hA])]
    rw [if_pos hne]
    rw [if_neg (by simp [hcell])]
    rw [if_neg (by simp [hvalid])]
  · intro A t t₁ looped hactive htl hq hadv hbound hr0 hr16 hrne
    exact trackTickStep_jump_conversion tab A t hactive htl hq hadv hbound hr0 hr16 hrne
  · intro s A t₁ looped fcr fpid hm hA htl hq hadv hbound hr0 hr16 hrne hcell hslot
    have hconv := trackTickStep_jump_conversion tab A (s.transports A)
      hA htl hq hadv hbound hr0 hr16 hrne
    have hflag : ∃ u : Track, (trackTickStep tab u (s.transports u)).2.1 = true := by
      refine ⟨A, ?_⟩
      rw [hconv.1]
    rw [advance_transports_of_boundary tab s A hm hflag]
    rw [hconv.1]
    dsimp only
    have hact := @queuedStartStep_activates tab A
      ({ t₁ with active := false, queued := 1 }) rfl rfl
      (show (0 : Int) ≤ t₁.queuedRow by rw [hconv.2]; exact hr0)
      (show t₁.queuedRow < 16 by rw [hconv.2]; exact hr16)
      (show tab.songData A t₁.queuedRow ≠ -1 by rw [hconv.2]; exact hcell)
      fcr fpid
      (show firstNonEmptyChainSlot tab A (tab.songData A t₁.queuedRow) =
        some (fcr, fpid) by rw [hconv.2]; exact hslot)
    rw [congrArg Prod.fst hact]
    rw [hconv.2]
  · intro s A hm hA hq htl
    have hstep := trackTickStep_midcell tab A (s.transports A) hA htl
    have htrans : (AdvancePlayback tab s).transports A =
        { s.transports A with ticksLeft := (s.transports A).ticksLeft - 1 } := by
      by_cases hfl : ∃ u : Track, (trackTickStep tab u (s.transports u)).2.1 = true
      · rw [advance_transports_of_boundary tab s A hm hfl]
        rw [hstep]
        dsimp only
        have hskip : ¬ (({ s.transports A with
              ticksLeft := (s.transports A).ticksLeft - 1 } : Transport).queued = 1 ∧
            ({ s.transports A with
              ticksLeft := (s.transports A).ticksLeft - 1 } : Transport).active = false) := by
          intro hco
          have h₂ : (s.transports A).active = false := hco.2
          rw [hA] at h₂
          cases h₂
        rw [queuedStartStep_skip tab A _ hskip]
      · push_neg at hfl
        have hnb : ∀ u : Track, (trackTickStep tab u (s.transports u)).2.1 = false := by
          intro u
          cases hqb : (trackTickStep tab u (s.transports u)).2.1
          · rfl
          · exact absurd hqb (hfl u)
        rw [advance_transports_of_no_boundary tab s A hm hnb]
        rw [hstep]
    refine ⟨htrans, ?_, ?_, ?_, ?_⟩
    · rw [htrans]
      exact hA
    · rw [htrans]
    · rw [htrans]
      exact hq
    · rw [htrans]
  · intro s A t₁ looped hm hA hq htl hadv hrow hlp
    have hctrl := advance_preserves_control tab A (decTick (s.transports A))
    rw [hadv] at hctrl
    dsimp only at hctrl
    have hdf := decTick_fields (s.transports A)
    have hact₁ : t₁.active = true := by
      rw [hctrl.1, hdf.1]
      exact hA
    have hstep := trackTickStep_within_cell tab A (s.transports A) hA htl hadv hrow hlp
    have htrans : (AdvancePlayback tab s).transports A =
        LoadTicksLeftForTrack tab A t₁ := by
      by_cases hfl : ∃ u : Track, (trackTickStep tab u (s.transports u)).2.1 = true
      · rw [advance_transports_of_boundary tab s A hm hfl]
        rw [hstep.1]
        have hskip : ¬ ((LoadTicksLeftForTrack tab A t₁).queued = 1 ∧
            (LoadTicksLeftForTrack tab A t₁).active = false) := by
          intro hco
          have h₂ : t₁.active = false := hco.2
          rw [hact₁] at h₂
          cases h₂
        rw [queuedStartStep_skip tab A _ hskip]
      · push_neg at hfl
        have hnb : ∀ u : Track, (trackTickStep tab u (s.transports u)).2.1 = false := by
          intro u
          cases hqb : (trackTickStep tab u (s.transports u)).2.1
          · rfl
          · exact absurd hqb (hfl u)
        rw [advance_transports_of_no_boundary tab s A hm hnb]
        exact hstep.1
    refine ⟨htrans, ?_, ?_, ?_, ?_⟩
    · rw [htrans]
      exact hact₁
    · rw [htrans]
      exact hrow
    · rw [htrans]
      show t₁.queued = -1
      rw [hctrl.2.1, hdf.2.1]
      exact hq
    · rw [htrans]
      show t₁.queuedRow = (s.transports A).queuedRow
      rw [hctrl.2.2.1, hdf.2.2.1]

/-- Two-track song for the jump / queued-start scenarios: track 0 rows 0 and
1 hold chain 0 and row 2 holds chain 1; track 1 row 0 holds chain 2; chains
0..2 hold phrases 0..2 in slot 0; each phrase's only playable row is row 0
with DT 1. -/
def tabC2 : Tables :=
  { songData := fun track row =>
      if track = 0 ∧ (row = 0 ∨ row = 1) then 0
      else if track = 0 ∧ row = 2 then 1
      else if track = 1 ∧ row = 0 then 2
      else -1
    chains := fun _ chainID chainRow =>
      if chainRow = 0 ∧ (chainID = 0 ∨ chainID = 1 ∨ chainID = 2) then chainID else -1
    phraseDT := fun _ phraseID row =>
      if row = 0 ∧ 0 ≤ phraseID ∧ phraseID < 3 then 1 else 0 }

/-- Track 0 playing song row 0 with one tick left and a queued jump to row 2. -/
def tJumpW : Transport :=
  { active := true, queued := -1, queuedRow := 2, songRow := 0, chain := 0,
    chainRow := 0, phrase := 0, rowInPhrase := 0, ticksLeft := 1 }

/-- The resolver's result at the `tJumpW` boundary: song row advanced to 1. -/
def tJumpResW : Transport :=
  { active := true, queued := -1, queuedRow := 2, songRow := 1, chain := 0,
    chainRow := 0, phrase := 0, rowInPhrase := 0, ticksLeft := 0 }

/-- Cursor on track 0 / row 2 while track 0 plays row 0 (jump request). -/
def sJumpToggleW : State :=
  { idleState with
      isPlaying := true
      currentRow := 2
      transports := fun u =>
        if u = 0 then { tJumpW with queued := 0, queuedRow := -1 }
        else inertTransport }

/-- Track 0 at its boundary tick with the queued jump pending. -/
def sJumpTickW : State :=
  { idleState with
      isPlaying := true
      transports := fun u => if u = 0 then tJumpW else inertTransport }

/-- `tabC2` with a second playable row (row 1, DT 1) in each phrase, for the
within-phrase cell-boundary scenario. -/
def tabC2b : Tables :=
  { songData := tabC2.songData
    chains := tabC2.chains
    phraseDT := fun _ phraseID row =>
      if (row = 0 ∨ row = 1) ∧ 0 ≤ phraseID ∧ phraseID < 3 then 1 else 0 }

/-- Track 0 mid-cell (three ticks left) with the queued jump pending. -/
def sJumpMidW : State :=
  { idleState with
      isPlaying := true
      transports := fun u =>
        if u = 0 then { tJumpW with ticksLeft := 3 } else inertTransport }

/-- The resolver's result at the `tJumpW` boundary under `tabC2b`: advanced
within the phrase to row 1, song row unchanged. -/
def tJumpWithinW : Transport :=
  { tJumpW with rowInPhrase := 1, ticksLeft := 0 }

set_option maxRecDepth 400000 in
/-- Witness for `jump_converts_to_queued_start`: the cursor-on-other-cell
toggle queues the jump, the boundary tick converts it to a queued start
without emitting, the same tick activates track 0 at row 2, a mid-cell tick
only decrements the budget with the jump still pending, and a within-phrase
cell boundary keeps track 0 active at song row 0 with the jump intact. -/
theorem jump_converts_to_queued_start_witness :
    (ToggleSingleTrackPlayback tabC2 sJumpToggleW =
      setTransport sJumpToggleW 0
        { sJumpToggleW.transports 0 with queued := -1, queuedRow := sJumpToggleW.currentRow }) ∧
    (trackTickStep tabC2 0 tJumpW =
      ({ tJumpResW with active := false, queued := 1 }, true, []) ∧
      tJumpResW.queuedRow = tJumpW.queuedRow) ∧
    (AdvancePlayback tabC2 sJumpTickW).transports 0 =
      LoadTicksLeftForTrack tabC2 0
        { tJumpResW with
            active := true
            queued := 0
            songRow := (sJumpTickW.transports 0).queuedRow
            chain := tabC2.songData 0 (sJumpTickW.transports 0).queuedRow
            chainRow := 0
            phrase := 1
            rowInPhrase := FindFirstNonEmptyRowInPhraseForTrack tabC2 0 1 } ∧
    ((AdvancePlayback tabC2 sJumpMidW).transports 0 =
        { sJumpMidW.transports 0 with
            ticksLeft := (sJumpMidW.transports 0).ticksLeft - 1 } ∧
      ((AdvancePlayback tabC2 sJumpMidW).transports 0).active = true ∧
      ((AdvancePlayback tabC2 sJumpMidW).transports 0).songRow =
        (sJumpMidW.transports 0).songRow ∧
      ((AdvancePlayback tabC2 sJumpMidW).transports 0).queued = -1 ∧
      ((AdvancePlayback tabC2 sJumpMidW).transports 0).queuedRow =
        (sJumpMidW.transports 0).queuedRow) ∧
    ((AdvancePlayback tabC2b sJumpTickW).transports 0 =
        LoadTicksLeftForTrack tabC2b 0 tJumpWithinW ∧
      ((AdvancePlayback tabC2b sJumpTickW).transports 0).active = true ∧
      ((AdvancePlayback tabC2b sJumpTickW).transports 0).songRow =
        (sJumpTickW.transports 0).songRow ∧
      ((AdvancePlayback tabC2b sJumpTickW).transports 0).queued = -1 ∧
      ((AdvancePlayback tabC2b sJumpTickW).transports 0).queuedRow =
        (sJumpTickW.transports 0).queuedRow) := by
  refine ⟨?_, ?_, ?_, ?_, ?_⟩
  · exact (jump_converts_to_queued_start tabC2).1 sJumpToggleW 0 rfl (by decide)
      rfl (by decide) (by decide) (by decide) (by decide) (by decide) (by decide)
      (by decide)
  · exact (jump_converts_to_queued_start tabC2).2.1 0 tJumpW tJumpResW true
      (by decide) (by decide) (by decide) (by decide) (by decide) (by decide)
      (by decide) (by decide)
  · exact (jump_converts_to_queued_start tabC2).2.2.1 sJumpTickW 0 tJumpResW true 0 1
      rfl (by decide) (by decide) (by decide) (by decide) (by decide) (by decide)
      (by decide) (by decide) (by decide) (by decide)
  · exact (jump_converts_to_queued_start tabC2).2.2.2.1 sJumpMidW 0 rfl (by decide)
      (by decide) (by decide)
  · exact (jump_converts_to_queued_start tabC2b).2.2.2.2 sJumpTickW 0 tJumpWithinW false
      rfl (by decide) (by decide) (by decide) (by decide) (by decide) rfl

/-- Track 1's steady transport on its single-cell loop (chain 2, phrase 2). -/
def tLoopW (ticks : Int) : Transport :=
  { active := true, queued := 0, queuedRow := -1, songRow := 0, chain := 2,
    chainRow := 0, phrase := 2, rowInPhrase := 0, ticksLeft := ticks }

/-- Cursor on track 0 / row 0 while track 1 is playing: a start on track 0
must queue. -/
def sQStartToggleW : State :=
  { idleState with
      isPlaying := true
      transports := fun u => if u = 1 then tLoopW 3 else inertTransport }

/-- Track 0 queued to start at row 0; track 1 mid-cell (no boundary this
tick). -/
def sQNoBoundaryW : State :=
  { idleState with
      isPlaying := true
      transports := fun u =>
        if u = 0 then { inertTransport with queued := 1, queuedRow := 0 }
        else if u = 1 then tLoopW 3
        else inertTransport }

/-- Track 0 queued to start at row 0; track 1 reaching its cell boundary
this tick (its single-cell chain loops). -/
def sQBoundaryW : State :=
  { idleState with
      isPlaying := true
      transports := fun u =>
        if u = 0 then { inertTransport with queued := 1, queuedRow := 0 }
        else if u = 1 then tLoopW 1
        else inertTransport }

set_option maxRecDepth 400000 in
/-- Witness for `queued_start_waits_for_boundary`: starting track 0 while
track 1 plays only queues it; a mid-cell tick leaves it untouched; the tick
on which track 1's chain loops activates it at its queued row. -/
theorem queued_start_waits_for_boundary_witness :
    (ToggleSingleTrackPlayback tabC2 sQStartToggleW =
      setTransport sQStartToggleW 0
        { sQStartToggleW.transports 0 with queued := 1, queuedRow := sQStartToggleW.currentRow }) ∧
    (AdvancePlayback tabC2 sQNoBoundaryW).transports 0 = sQNoBoundaryW.transports 0 ∧
    (AdvancePlayback tabC2 sQBoundaryW).transports 0 =
      LoadTicksLeftForTrack tabC2 0
        { sQBoundaryW.transports 0 with
            active := true
            queued := 0
            songRow := (sQBoundaryW.transports 0).queuedRow
            chain := tabC2.songData 0 (sQBoundaryW.transports 0).queuedRow
            chainRow := 0
            phrase := 0
            rowInPhrase := FindFirstNonEmptyRowInPhraseForTrack tabC2 0 0 } := by
  refine ⟨?_, ?_, ?_⟩
  · exact (queued_start_waits_for_boundary tabC2).1 sQStartToggleW 0 0 0 rfl
      (by decide) rfl (by decide) (by decide) (by decide) (by decide) (by decide)
      (by decide) (by decide)
  · exact (queued_start_waits_for_boundary tabC2).2.1 sQNoBoundaryW 0 rfl
      (by decide) (by decide)
  · exact (queued_start_waits_for_boundary tabC2).2.2 sQBoundaryW 0 0 0 rfl
      (by decide) (by decide) (by decide) (by decide) (by decide) (by decide)
      (by decide)

end ColliderTracker
